import Mathlib

/-!
Verification development for the tv4p-road-tool repository (Go).

This file shallowly embeds the parts of the source relevant to the
road-tool binary codec and patch engine:

* the entry/field decoder (`internal/tv4p` parse code),
* the writer/patcher (`internal/tv4p/write.go`),
* crossroad validation (`internal/tv4p/validate.go`),
* the filename parsers (`internal/roadparts`).

Byte buffers are modelled as `List Nat`; each stored byte is kept below
256 because every write reduces mod 256, exactly as Go's `byte(v)`
conversion does, and reads reduce mod 256, reflecting Go's `byte` type.
Go strings are modelled as `List Char`; conversions to bytes use the
code points, which matches Go's UTF-8 encoding on the ASCII inputs this
domain uses.  Go loops without a structural bound are given explicit
fuel; exhausted fuel maps to a failure, which corresponds to the Go
loop not terminating and is unreachable for the inputs the program
handles.
-/

set_option maxRecDepth 4000

namespace Tv4p

/-- Go string, modelled as a list of characters (ASCII in this domain). -/
abbrev GoStr := List Char

/-- Byte of a buffer at index `i`; Go's `byte` values are below 256, so
arbitrary naturals are reduced. Out-of-range access yields 0, mirroring
the explicit length guards of the Go helpers. -/
def byteAt (b : List Nat) (i : Nat) : Nat := (b.getD i 0) % 256

/-- `readU16` from the tv4p byte helpers: little-endian u16, 0 when the
slice is too short. -/
def readU16 (b : List Nat) : Nat :=
  if b.length < 2 then 0 else byteAt b 0 + 256 * byteAt b 1

/-- `readU32` from the tv4p byte helpers: little-endian u32, 0 when the
slice is too short. -/
def readU32 (b : List Nat) : Nat :=
  if b.length < 4 then 0
  else byteAt b 0 + 256 * byteAt b 1 + 65536 * byteAt b 2 + 16777216 * byteAt b 3

/-- The four little-endian bytes of `writeU32` (Go reduces via `byte(v)`). -/
def u32Bytes (v : Nat) : List Nat :=
  [v % 256, v / 256 % 256, v / 65536 % 256, v / 16777216 % 256]

/-- The two little-endian bytes of `writeU16`. -/
def u16Bytes (v : Nat) : List Nat := [v % 256, v / 256 % 256]

/-- `writeU16FromInt` on a natural: errors above the u16 range. -/
def writeU16FromNat (v : Nat) : Except String (List Nat) :=
  if v > 0xFFFF then .error "value out of uint16 range" else .ok (u16Bytes v)

/-- `writeU32FromInt` on a natural: errors above the u32 range. -/
def writeU32FromNat (v : Nat) : Except String (List Nat) :=
  if v > 0xFFFFFFFF then .error "value out of uint32 range" else .ok (u32Bytes v)

/-- `writeU32FromInt` on a Go `int`: errors outside the u32 range. -/
def writeU32FromInt (v : Int) : Except String (List Nat) :=
  if v < 0 ∨ v > 0xFFFFFFFF then .error "value out of uint32 range"
  else .ok (u32Bytes v.toNat)

mutual

/-- Raw tv4p entry (`Entry` in tv4p.go): type, id, offsets and fields. -/
inductive Entry : Type where
  | mk (typeID : Nat) (id : Nat) (offset : Nat) (idOffset : Nat) (fields : List Field)

/-- Raw tv4p field (`Field` in tv4p.go): tag, type code, raw payload or
nested entry list. -/
inductive Field : Type where
  | mk (tag : Nat) (typ : Nat) (raw : List Nat) (list : List Entry)

end

def Entry.typeID : Entry → Nat | .mk t _ _ _ _ => t

def Entry.id : Entry → Nat | .mk _ i _ _ _ => i

def Entry.offset : Entry → Nat | .mk _ _ o _ _ => o

def Entry.idOffset : Entry → Nat | .mk _ _ _ o _ => o

def Entry.fields : Entry → List Field | .mk _ _ _ _ fs => fs

def Field.tag : Field → Nat | .mk t _ _ _ => t

def Field.typ : Field → Nat | .mk _ t _ _ => t

def Field.raw : Field → List Nat | .mk _ _ r _ => r

def Field.list : Field → List Entry | .mk _ _ _ l => l

mutual

/-- The field loop of `parseEntry` (part of the tv4p decoder): starting
at `pos` inside `body`, parse fields while at least 3 header bytes
remain, and return the fields together with the final position.  The Go
loop exits silently once fewer than 3 bytes remain. -/
def parseFieldsF : Nat → List Nat → Nat → Nat → List Field →
    Option (List Field × Nat)
  | 0, _, _, _, _ => none
  | fuel + 1, body, absStart, pos, acc =>
    if pos + 3 ≤ body.length then
      let tag := byteAt body pos
      if byteAt body (pos + 1) ≠ 0 then none
      else
        let typ := byteAt body (pos + 2)
        let p3 := pos + 3
        if typ = 0x0B then
          if p3 + 2 > body.length then none
          else
            let ln := readU16 (body.drop p3)
            let p5 := p3 + 2
            if p5 + ln > body.length then none
            else parseFieldsF fuel body absStart (p5 + ln)
                (acc ++ [Field.mk tag typ ((body.drop p5).take ln) []])
        else if typ = 0x09 then
          if p3 + 1 > body.length then none
          else parseFieldsF fuel body absStart (p3 + 1)
              (acc ++ [Field.mk tag typ ((body.drop p3).take 1) []])
        else if typ = 0x08 then
          if p3 + 4 > body.length then none
          else parseFieldsF fuel body absStart (p3 + 4)
              (acc ++ [Field.mk tag typ ((body.drop p3).take 4) []])
        else if typ = 0x14 then
          if p3 + 8 > body.length then none
          else parseFieldsF fuel body absStart (p3 + 8)
              (acc ++ [Field.mk tag typ ((body.drop p3).take 8) []])
        else if typ = 0x0C then
          if p3 + 8 > body.length then none
          else
            let listLen := readU32 (body.drop p3)
            let count := readU32 (body.drop (p3 + 4))
            let p11 := p3 + 8
            if listLen < 4 then none
            else
              let entriesLen := listLen - 4
              if p11 + entriesLen > body.length then none
              else
                match parseEntriesF fuel body p11 entriesLen count absStart with
                | none => none
                | some es =>
                  parseFieldsF fuel body absStart (p11 + entriesLen)
                    (acc ++ [Field.mk tag typ [] es])
        else none
    else some (acc, pos)
termination_by structural fuel _ _ _ _ => fuel

/-- `parseEntry` from the tv4p decoder: a body shorter than 6 bytes
fails; otherwise the type/id header is read and the field loop runs
from position 6 (its final position is discarded, as in the source). -/
def parseEntryF : Nat → List Nat → Nat → Option Entry
  | 0, _, _ => none
  | fuel + 1, body, absStart =>
    if body.length < 6 then none
    else
      match parseFieldsF fuel body absStart 6 [] with
      | none => none
      | some (fs, _) =>
        some (Entry.mk (readU16 body) (readU32 (body.drop 2)) absStart
          (absStart + 2) fs)
termination_by structural fuel _ _ => fuel

/-- The loop of `parseEntries`: while 7 header bytes fit before `endPos`
and fewer than `count` entries have been taken, parse one entry. -/
def parseEntriesLoopF : Nat → List Nat → Nat → Nat → Nat → Nat →
    List Entry → Option (List Entry)
  | 0, _, _, _, _, _, _ => none
  | fuel + 1, data, pos, endPos, count, baseOffset, acc =>
    if pos + 7 ≤ endPos ∧ acc.length < count then
      if byteAt data pos = 0x06 ∧ byteAt data (pos + 1) = 0 ∧
          byteAt data (pos + 2) = 0x0D then
        let bodyLen := readU32 (data.drop (pos + 3))
        let bodyStart := pos + 7
        if bodyStart + bodyLen > endPos then none
        else
          match parseEntryF fuel ((data.drop bodyStart).take bodyLen)
              (baseOffset + bodyStart) with
          | none => none
          | some e =>
            parseEntriesLoopF fuel data (bodyStart + bodyLen) endPos count
              baseOffset (acc ++ [e])
      else none
    else some acc
termination_by structural fuel _ _ _ _ _ _ => fuel

/-- `parseEntries` from the tv4p decoder. -/
def parseEntriesF : Nat → List Nat → Nat → Nat → Nat → Nat →
    Option (List Entry)
  | 0, _, _, _, _, _ => none
  | fuel + 1, data, pos, listLen, count, baseOffset =>
    if pos + listLen > data.length then none
    else parseEntriesLoopF fuel data pos (pos + listLen) count baseOffset []
termination_by structural fuel _ _ _ _ _ => fuel

end

/-- Default fuel for the decoder: enough for any buffer, since every
loop step consumes at least one byte or one entry. -/
def parseFuel (data : List Nat) : Nat := data.length + 16

/-- `parseEntries data pos listLen count baseOffset` with default fuel. -/
def parseEntries (data : List Nat) (pos listLen count baseOffset : Nat) :
    Option (List Entry) :=
  parseEntriesF (parseFuel data) data pos listLen count baseOffset

/-- `parseEntry body absStart` with default fuel. -/
def parseEntry (body : List Nat) (absStart : Nat) : Option Entry :=
  parseEntryF (parseFuel body) body absStart

/-! ### Go string helpers

Counterparts of the `strings` package functions the source uses,
over `GoStr = List Char`.  `ToLower` is modelled on its ASCII fragment,
which covers the identifiers of this domain. -/

/-- ASCII fragment of Go `strings.ToLower` for one character. -/
def asciiLower (c : Char) : Char :=
  if 'A' ≤ c ∧ c ≤ 'Z' then Char.ofNat (c.toNat + 32) else c

/-- Go `strings.ToLower` (ASCII fragment). -/
def goToLower (s : GoStr) : GoStr := s.map asciiLower

/-- Go's `unicode.IsSpace` on the ASCII whitespace characters. -/
def goIsSpace (c : Char) : Bool :=
  c = ' ' ∨ c = '\t' ∨ c = '\n' ∨ c = '\x0b' ∨ c = '\x0c' ∨ c = '\r'

/-- Go `strings.TrimSpace`. -/
def goTrimSpace (s : GoStr) : GoStr :=
  ((s.dropWhile goIsSpace).reverse.dropWhile goIsSpace).reverse

/-- Go `strings.HasPrefix`. -/
def goStartsWith : GoStr → GoStr → Bool
  | [], _ => true
  | _ :: _, [] => false
  | p :: ps, c :: cs => p = c && goStartsWith ps cs

/-- Go `strings.TrimPrefix`; at its uses the prefix is known to be
present, so it drops the prefix length. -/
def goDropPre (p s : GoStr) : GoStr := s.drop p.length

/-- Go `strings.HasSuffix`. -/
def goEndsWith (suf s : GoStr) : Bool := goStartsWith suf.reverse s.reverse

/-- Go `strings.TrimSuffix`. -/
def goTrimSuf (suf s : GoStr) : GoStr :=
  if goEndsWith suf s then s.take (s.length - suf.length) else s

/-- Go `strings.Split` on a single-character separator. -/
def goSplit : GoStr → Char → List GoStr
  | [], _ => [[]]
  | c :: rest, sep =>
    if c = sep then [] :: goSplit rest sep
    else
      match goSplit rest sep with
      | h :: t => (c :: h) :: t
      | [] => [[c]]

/-- Go `strings.Join` with a single-character separator. -/
def goJoin : List GoStr → Char → GoStr
  | [], _ => []
  | [s], _ => s
  | s :: rest, sep => s ++ sep :: goJoin rest sep

/-- Go `strings.Contains` (substring search). -/
def goContains : GoStr → GoStr → Bool
  | s, sub =>
    if goStartsWith sub s then true
    else match s with
      | [] => false
      | _ :: rest => goContains rest sub

/-- Go `strings.LastIndex` with a single-character needle; `none` plays
the role of Go's -1. -/
def goLastIndexChar (s : GoStr) (c : Char) : Option Nat :=
  (List.range s.length).foldl
    (fun acc i => if s.getD i ' ' = c then some i else acc) none

/-- Go `strings.Fields`: whitespace-separated words, no empties. -/
def goFields : GoStr → List GoStr
  | [] => []
  | c :: rest =>
    if goIsSpace c then goFields rest
    else
      match goFields rest with
      | [] => [[c]]
      | w :: ws =>
        match rest with
        | [] => [[c]]
        | r :: _ => if goIsSpace r then [c] :: w :: ws else (c :: w) :: ws

/-- Byte-wise lexicographic comparison, Go's `<` on strings. -/
def goStrLt : GoStr → GoStr → Bool
  | [], [] => false
  | [], _ :: _ => true
  | _ :: _, [] => false
  | a :: as_, b :: bs => if a.toNat < b.toNat then true
      else if b.toNat < a.toNat then false else goStrLt as_ bs

/-- Go `[]byte(s)` (code points; exact for the ASCII data in play). -/
def strBytes (s : GoStr) : List Nat := s.map (fun c => c.toNat % 256)

/-- Go `string(b)` for a byte slice (ASCII fragment). -/
def bytesToStr (b : List Nat) : GoStr := b.map (fun n => Char.ofNat (n % 256))

/-! ### Domain model (tv4p.go and the crossroad config structures) -/

/-- RGBA color from tv4p.go. -/
structure Color where
  R : Nat := 0
  G : Nat := 0
  B : Nat := 0
  A : Nat := 0
deriving DecidableEq, Repr

/-- `RoadPart` from tv4p.go. -/
structure RoadPart where
  Name : GoStr := []
  Path : GoStr := []
  ID : Nat := 0
  Typ : Nat := 0
deriving DecidableEq, Repr

/-- `RoadType` from tv4p.go. -/
structure RoadType where
  Name : GoStr := []
  StraightParts : List RoadPart := []
  CornerParts : List RoadPart := []
  TerminatorPart : List RoadPart := []
  ID : Nat := 0
  Typ : Nat := 0
  KeyColor : Color := {}
  NormalColor : Color := {}
  KeyCustom : Bool := false
  NormalCustom : Bool := false
deriving DecidableEq, Repr

mutual

/-- `EntryRaw`: verbatim-preserved raw entry (type id, identifier,
ordered raw fields). -/
inductive EntryRaw : Type where
  | mk (typ : Nat) (id : Nat) (fields : List FieldRaw)

/-- `FieldRaw`: raw field of an `EntryRaw`.  The Go struct stores the
payload hex-encoded in a string; it is modelled here directly as the
decoded bytes (Go's `hex.EncodeToString`/`hex.DecodeString` are mutually
inverse on the values the program produces). -/
inductive FieldRaw : Type where
  | mk (tag : Nat) (typ : Nat) (raw : List Nat) (list : List EntryRaw)

end

def EntryRaw.typ : EntryRaw → Nat | .mk t _ _ => t

def EntryRaw.id : EntryRaw → Nat | .mk _ i _ => i

def EntryRaw.fields : EntryRaw → List FieldRaw | .mk _ _ fs => fs

def FieldRaw.tag : FieldRaw → Nat | .mk t _ _ _ => t

def FieldRaw.typ : FieldRaw → Nat | .mk _ t _ _ => t

def FieldRaw.raw : FieldRaw → List Nat | .mk _ _ r _ => r

def FieldRaw.list : FieldRaw → List EntryRaw | .mk _ _ _ l => l

/-- `CrossroadConnections`: the four named connection slots. -/
structure CrossroadConnections where
  A : GoStr := []
  B : GoStr := []
  C : GoStr := []
  D : GoStr := []
deriving DecidableEq, Repr

/-- `CrossroadType`: a crossroad definition in the config. -/
structure CrossroadType where
  Name : GoStr := []
  Model : GoStr := []
  Color : Color := {}
  ColorCustom : Bool := false
  Connections : CrossroadConnections := {}
  Default : GoStr := []
  TV4PDef : Option EntryRaw := none
  TV4PLink : Option EntryRaw := none

/-- `RoadConfig`: road types plus the optional crossroad list; `none`
models Go's nil slice ("do not touch crossroads"), `some []` an
empty-but-present list ("erase crossroads"). -/
structure RoadConfig where
  Types : List RoadType := []
  CrossroadTypes : Option (List CrossroadType) := none

/-- `Scope` from the tv4p package. -/
inductive Scope : Type where
  | all
  | roads
  | crossroads
deriving DecidableEq, Repr

/-- `Scope.IncludesRoads`. -/
def Scope.IncludesRoads : Scope → Bool
  | .all => true
  | .roads => true
  | .crossroads => false

/-- `Scope.IncludesCrossroads`. -/
def Scope.IncludesCrossroads : Scope → Bool
  | .all => true
  | .roads => false
  | .crossroads => true

/-! ### Road-types block extraction (the tv4p read path) -/

/-- `roadTypesMeta`. -/
structure roadTypesMeta where
  Start : Nat := 0
  ListLen : Nat := 0
  EntriesStart : Nat := 0
  EntriesLen : Nat := 0
deriving DecidableEq, Repr

/-- `RoadTypesBlock`. -/
structure RoadTypesBlock where
  Entries : List Entry := []
  Types : List RoadType := []
  Start : Nat := 0
  ListLen : Nat := 0
  EntriesStart : Nat := 0
  EntriesLen : Nat := 0
  Count : Nat := 0

/-- `extractParts`: project a decoded entry list into road parts. -/
def extractParts (list : List Entry) : List RoadPart :=
  list.foldl
    (fun parts e =>
      let p0 : RoadPart := { ID := e.id, Typ := e.typeID }
      let p := e.fields.foldl
        (fun p f =>
          if f.tag = 0x33 then { p with Name := bytesToStr f.raw }
          else if f.tag = 0x7C then { p with Path := bytesToStr f.raw }
          else p) p0
      if p.Name ≠ ([] : GoStr) ∨ p.Path ≠ ([] : GoStr) then parts ++ [p]
      else parts) []

/-- `looksLikeRoadPath`: case-normalised path mentions `.p3d`. -/
def looksLikeRoadPath (p : GoStr) : Bool :=
  let p1 := goToLower p
  let p2 := p1.map (fun c => if c = '/' then '\\' else c)
  goContains p2 ".p3d".toList

/-- `entryHasRoadPath`. -/
def entryHasRoadPath (e : Entry) : Bool :=
  e.fields.any (fun f =>
    (f.tag = 0x7C && looksLikeRoadPath (bytesToStr f.raw)) ||
    f.list.any (fun sub =>
      sub.fields.any (fun sf =>
        sf.tag = 0x7C && looksLikeRoadPath (bytesToStr sf.raw))))

/-- `entryHasRoadLists`: the entry carries one of the parts-list tags. -/
def entryHasRoadLists (e : Entry) : Bool :=
  e.fields.any (fun f => f.tag = 0x78 ∨ f.tag = 0x79 ∨ f.tag = 0x7B)

/-- One candidate step of `findRoadTypesList` at index `i`: check the
signature, lengths, decode, and the road-type validator. -/
def roadTypesCandidate (data : List Nat) (i : Nat) :
    Option (roadTypesMeta × Nat × List Entry) :=
  if byteAt data i = 0x88 ∧ byteAt data (i + 1) = 0 ∧
      byteAt data (i + 2) = 0x0C then
    let listLen := readU32 (data.drop (i + 3))
    let countU32 := readU32 (data.drop (i + 7))
    if countU32 > 0x7FFFFFFF then none
    else if listLen < 4 then none
    else
      let entriesLen := listLen - 4
      let pos := i + 11
      match parseEntries data pos entriesLen countU32 0 with
      | none => none
      | some entries =>
        if entries.any (fun e => entryHasRoadPath e || entryHasRoadLists e) then
          some ({ Start := i, ListLen := listLen, EntriesStart := pos,
                  EntriesLen := entriesLen }, countU32, entries)
        else none
  else none

/-- `findRoadTypesList`: scan for the first accepted 0x88 candidate. -/
def findRoadTypesList (data : List Nat) :
    Except String (roadTypesMeta × Nat × List Entry) :=
  match (List.range (data.length - 11)).findSome?
      (fun i => roadTypesCandidate data i) with
  | some r => .ok r
  | none => .error "road types list not found"

/-- The per-entry projection loop of `ParseRoadTypes`. -/
def entryToRoadType (e : Entry) : RoadType :=
  e.fields.foldl
    (fun rt f =>
      if f.tag = 0x33 then { rt with Name := bytesToStr f.raw }
      else if f.tag = 0x71 then
        { rt with KeyCustom := f.raw.length > 0 && f.raw.headD 0 ≠ 0 }
      else if f.tag = 0x72 then
        { rt with NormalCustom := f.raw.length > 0 && f.raw.headD 0 ≠ 0 }
      else if f.tag = 0x73 then
        if f.raw.length ≥ 4 then
          { rt with NormalColor := { R := f.raw.getD 0 0, G := f.raw.getD 1 0,
                                     B := f.raw.getD 2 0, A := f.raw.getD 3 0 } }
        else rt
      else if f.tag = 0x74 then
        if f.raw.length ≥ 4 then
          { rt with KeyColor := { R := f.raw.getD 0 0, G := f.raw.getD 1 0,
                                  B := f.raw.getD 2 0, A := f.raw.getD 3 0 } }
        else rt
      else if f.tag = 0x78 then { rt with StraightParts := extractParts f.list }
      else if f.tag = 0x79 then { rt with CornerParts := extractParts f.list }
      else if f.tag = 0x7B then { rt with TerminatorPart := extractParts f.list }
      else rt)
    { ID := e.id, Typ := e.typeID }

/-- `ParseRoadTypes` from the tv4p read path. -/
def ParseRoadTypes (data : List Nat) : Except String RoadTypesBlock :=
  match findRoadTypesList data with
  | .error e => .error e
  | .ok (meta, count, entries) =>
    if entries.length ≠ count then .error "entry count mismatch"
    else
      .ok { Start := meta.Start, Count := count, ListLen := meta.ListLen,
            EntriesStart := meta.EntriesStart, EntriesLen := meta.EntriesLen,
            Entries := entries, Types := entries.map entryToRoadType }

/-! ### Tagged-list discovery after the road types (read path, shared
with the patcher) -/

/-- `taggedList`. -/
structure taggedList where
  Entries : List Entry := []
  Start : Nat := 0
  ListLen : Nat := 0
  FieldLen : Nat := 0
  Count : Nat := 0
  Found : Bool := false
  Tag : Nat := 0

/-- `entryString`: first field with the tag and string type. -/
def entryString (e : Entry) (tag : Nat) : GoStr :=
  match e.fields.find? (fun f => f.tag = tag && f.typ = 0x0B) with
  | some f => bytesToStr f.raw
  | none => []

/-- `entryColor`. -/
def entryColor (e : Entry) (tag : Nat) : Color :=
  match e.fields.find? (fun f => f.tag = tag && f.typ = 0x08 &&
      f.raw.length ≥ 4) with
  | some f => { R := f.raw.getD 0 0, G := f.raw.getD 1 0,
                B := f.raw.getD 2 0, A := f.raw.getD 3 0 }
  | none => {}

/-- `entryByte`. -/
def entryByte (e : Entry) (tag : Nat) : Nat :=
  match e.fields.find? (fun f => f.tag = tag && f.typ = 0x09 &&
      f.raw.length ≥ 1) with
  | some f => f.raw.headD 0
  | none => 0

/-- `entryU32`: first field with the tag whose type is u32-like. -/
def entryU32 (e : Entry) (tag : Nat) : Option Nat :=
  match e.fields.find? (fun f => f.tag = tag &&
      (f.typ = 0x05 || f.typ = 0x0D) && f.raw.length ≥ 4) with
  | some f => some (readU32 f.raw)
  | none => none

/-- `validateCrossroadDefs`: every entry is a 0x17 with name and model. -/
def validateCrossroadDefs (entries : List Entry) : Bool :=
  entries.all (fun e => e.typeID = 0x17 && entryString e 0x33 ≠ [] &&
    entryString e 0x7C ≠ [])

/-- `validateCrossroadLinks`: every entry is a 0x1A with a model ref. -/
def validateCrossroadLinks (entries : List Entry) : Bool :=
  entries.all (fun e => e.typeID = 0x1A && entryString e 0x91 ≠ [])

/-- One candidate step of `findTaggedListAfter` at index `i`. -/
def taggedListCandidate (data : List Nat) (tag : Nat)
    (validate : List Entry → Bool) (i : Nat) : Option taggedList :=
  if byteAt data i = tag ∧ byteAt data (i + 1) = 0 ∧
      byteAt data (i + 2) = 0x0C then
    let listLen := readU32 (data.drop (i + 3))
    let count := readU32 (data.drop (i + 7))
    if listLen < 4 then none
    else
      let entriesLen := listLen - 4
      let entriesStart := i + 11
      if entriesStart + entriesLen > data.length then none
      else
        match parseEntries data entriesStart entriesLen count 0 with
        | none => none
        | some entries =>
          if validate entries then
            some { Found := true, Tag := tag, Start := i, ListLen := listLen,
                   Count := count, FieldLen := 11 + entriesLen,
                   Entries := entries }
          else none
  else none

/-- `findTaggedListAfter`: scan from `from'` for the first accepted
candidate of the given tag. -/
def findTaggedListAfter (data : List Nat) (from' : Nat) (tag : Nat)
    (validate : List Entry → Bool) : taggedList × Bool :=
  if from' ≥ data.length then ({}, false)
  else
    match ((List.range (data.length + 1 - 11 - from')).map (fun k => from' + k)).findSome?
        (fun i => taggedListCandidate data tag validate i) with
    | some tl => (tl, true)
    | none => ({}, false)

/-! ### Crossroad validation (validate.go) -/

/-- `crossroadHasRoadType`: the (lower-cased) name appears among the
four connection values. -/
def crossroadHasRoadType (cr : CrossroadType) (rtName : GoStr) : Bool :=
  let want := goToLower rtName
  if want = ([] : GoStr) then false
  else
    [cr.Connections.A, cr.Connections.B, cr.Connections.C,
     cr.Connections.D].any (fun s => goToLower s = want)

/-- The connection-name checks of one crossroad in `ValidateCrossroads`;
the Go source ranges over a 4-entry map, which only affects which of the
sides' errors surfaces first, not whether an error is raised. -/
def connectionsOK (nameSet : List GoStr) (cr : CrossroadType) : Bool :=
  [cr.Connections.A, cr.Connections.B, cr.Connections.C,
   cr.Connections.D].all (fun v =>
    let v := goTrimSpace v
    v = ([] : GoStr) || nameSet.contains (goToLower v))

/-- `ValidateCrossroads` over the list, threading the seen-default map
(`roadTypeLower -> crossroadName`). -/
def validateCrossroadsLoop (nameSet : List GoStr)
    (seen : List (GoStr × GoStr)) : List CrossroadType → Except String Unit
  | [] => .ok ()
  | cr :: rest =>
    if !connectionsOK nameSet cr then
      .error "unknown road type in connections"
    else if goTrimSpace cr.Default ≠ ([] : GoStr) then
      let d := goToLower (goTrimSpace cr.Default)
      if !nameSet.contains d then
        .error "default refers to unknown road type"
      else if !crossroadHasRoadType cr cr.Default then
        .error "default road type is not present in connections"
      else if (seen.find? (fun p => p.1 = d)).isSome then
        .error "duplicate crossroad default"
      else validateCrossroadsLoop nameSet (seen ++ [(d, cr.Name)]) rest
    else validateCrossroadsLoop nameSet seen rest

/-- `ValidateCrossroads` from validate.go. -/
def ValidateCrossroads (crossroads : List CrossroadType)
    (roadTypes : List RoadType) : Except String Unit :=
  let nameSet := (roadTypes.filter
      (fun rt => goTrimSpace rt.Name ≠ ([] : GoStr))).map
      (fun rt => goToLower rt.Name)
  validateCrossroadsLoop nameSet [] crossroads

/-! ### Writer and patcher (write.go) -/

/-- 2^32; Go's u32 arithmetic wraps at this modulus. -/
def u32Mod : Nat := 4294967296

/-- `boolByte`. -/
def boolByte (v : Bool) : Nat := if v then 1 else 0

/-- Go `strconv.Itoa` on a natural. -/
def itoaN (n : Nat) : GoStr := Nat.toDigits 10 n

/-- 8 zero bytes (`make([]byte, 8)`). -/
def zeros8 : List Nat := List.replicate 8 0

/-- `fieldString`: tag, 0x0B, u16 length prefix and the bytes. -/
def fieldString (tag : Nat) (s : GoStr) : Except String (List Nat) :=
  let b := strBytes s
  match writeU16FromNat b.length with
  | .error e => .error e
  | .ok lenB => .ok ([tag, 0, 0x0B] ++ lenB ++ b)

/-- `fieldByte`. -/
def fieldByte (tag : Nat) (v : Nat) : List Nat := [tag, 0, 0x09, v % 256]

/-- `fieldColor`: a non-custom color is stored as the fixed
`00 00 00 FF`; the alpha byte is always 0xFF. -/
def fieldColor (tag : Nat) (c : Color) (custom : Bool) : List Nat :=
  if !custom then [tag, 0, 0x08, 0, 0, 0, 0xFF]
  else [tag, 0, 0x08, c.R % 256, c.G % 256, c.B % 256, 0xFF]

/-- `fieldBytes`. -/
def fieldBytes (tag : Nat) (b : List Nat) : List Nat := [tag, 0, 0x14] ++ b

/-- `buildList`: concatenate the serialized entries. -/
def buildList (entries : List (List Nat)) : List Nat := entries.flatten

/-- `fieldList`: tag, 0x0C, u32 payload length (including the 4 count
bytes), u32 entry count, entries. -/
def fieldList (tag : Nat) (entries : List (List Nat)) :
    Except String (List Nat) :=
  let listBytes := buildList entries
  match writeU32FromNat (listBytes.length + 4) with
  | .error e => .error e
  | .ok lenB =>
    match writeU32FromNat entries.length with
    | .error e => .error e
    | .ok cntB => .ok ([tag, 0, 0x0C] ++ lenB ++ cntB ++ listBytes)

/-- `buildEntry`: `06 00 0D`, u32 body length, u16 type, u32 id,
then the fields. -/
def buildEntry (typeID : Nat) (id : Nat) (fields : List (List Nat)) :
    Except String (List Nat) :=
  let body := u16Bytes typeID ++ u32Bytes id ++ fields.flatten
  match writeU32FromNat body.length with
  | .error e => .error e
  | .ok lenB => .ok ([0x06, 0, 0x0D] ++ lenB ++ body)

/-- `idAllocator` (write.go): used-id set and next candidate. -/
structure idAllocator where
  used : List Nat := []
  next : Nat := 0

/-- Set-insert into the used-id list (Go's `map[uint32]struct{}`). -/
def insertUsed (used : List Nat) (id : Nat) : List Nat :=
  if used.contains id then used else used ++ [id]

/-- `idAllocator.allocNext`: scan forward (wrapping, skipping zero and
used ids) for a free id.  The Go loop is unbounded; fuel `u32Mod`
covers every distinct state of `next`, so exhaustion coincides with the
Go loop cycling forever. -/
def allocNextF : Nat → idAllocator → Option (Nat × idAllocator)
  | 0, _ => none
  | fuel + 1, a =>
    let id := a.next
    let n1 := (a.next + 1) % u32Mod
    let n2 := if n1 = 0 then 1 else n1
    if id = 0 then allocNextF fuel { a with next := n2 }
    else if a.used.contains id then allocNextF fuel { a with next := n2 }
    else some (id, { used := insertUsed a.used id, next := n2 })

/-- `idAllocator.allocNext` with the covering fuel. -/
def allocNext (a : idAllocator) : Option (Nat × idAllocator) :=
  allocNextF u32Mod a

/-- `idAllocator.useOrDeterministic`: a non-zero caller id is registered
and returned unchanged; zero requests a fresh id (the seed is unused, as
in the source). -/
def useOrDeterministic (a : idAllocator) (id : Nat) (seed : GoStr) :
    Option (Nat × idAllocator) :=
  if id ≠ 0 then some (id, { a with used := insertUsed a.used id })
  else
    let _ := seed
    allocNext a

/-- Register one id into the (used set, max) accumulator of
`newIDAllocator`. -/
def registerID (s : List Nat × Nat) (id : Nat) : List Nat × Nat :=
  if id ≠ 0 then (insertUsed s.1 id, max s.2 id) else s

/-- `newIDAllocator`: seed the used set from the file scan and the
config ids, and start `next` just past the maximum, 4-aligned. -/
def newIDAllocator (cfg : RoadConfig) (existing : List Nat) : idAllocator :=
  let s0 := existing.foldl registerID ([], 0)
  let s := cfg.Types.foldl
    (fun s rt =>
      let s := registerID s rt.ID
      let s := rt.StraightParts.foldl (fun s p => registerID s p.ID) s
      let s := rt.CornerParts.foldl (fun s p => registerID s p.ID) s
      rt.TerminatorPart.foldl (fun s p => registerID s p.ID) s) s0
  let next := (s.2 + 1) % u32Mod
  let next := if next % 4 ≠ 0 then (next + (4 - next % 4)) % u32Mod else next
  { used := s.1, next := next }

/-- Lift an allocator result into the error monad; `none` corresponds to
a Go allocation loop that never terminates. -/
def allocE (r : Option (Nat × idAllocator)) :
    Except String (Nat × idAllocator) :=
  match r with
  | some x => .ok x
  | none => .error "id allocation loop exhausted"

/-- `buildPartSeed`. -/
def buildPartSeed (typ : Nat) (name path : GoStr) : GoStr :=
  "part|".toList ++ itoaN typ ++ "|".toList ++ name ++ "|".toList ++ path

/-- `buildPartsList`: serialize the part entries of one collection,
threading the allocator. -/
def buildPartsList (parts : List RoadPart) (defaultType : Nat)
    (includeFlag : Bool) (a : idAllocator) :
    Except String (List (List Nat) × idAllocator) :=
  parts.foldl
    (fun (acc : Except String (List (List Nat) × idAllocator)) p =>
      match acc with
      | .error e => .error e
      | .ok (entries, a) =>
        match fieldString 0x33 p.Name with
        | .error e => .error e
        | .ok nameField =>
          match fieldString 0x7C p.Path with
          | .error e => .error e
          | .ok pathField =>
            let fields := [nameField, pathField] ++
              (if includeFlag then [fieldByte 0x7D 0] else []) ++
              [fieldBytes 0x7E zeros8]
            let typ := if p.Typ = 0 then defaultType else p.Typ
            match allocE (useOrDeterministic a p.ID
                (buildPartSeed typ p.Name p.Path)) with
            | .error e => .error e
            | .ok (entryID, a') =>
              match buildEntry typ entryID fields with
              | .error e => .error e
              | .ok entry => .ok (entries ++ [entry], a'))
    (.ok ([], a))

/-- `buildRoadTypeEntry`: serialize one road type (fields in the fixed
canonical order of the source). -/
def buildRoadTypeEntry (rt : RoadType) (a : idAllocator) :
    Except String (List Nat × idAllocator) :=
  match fieldString 0x33 rt.Name with
  | .error e => .error e
  | .ok nameField =>
    let fields0 := [nameField,
      fieldByte 0x71 (boolByte rt.KeyCustom),
      fieldByte 0x72 (boolByte rt.NormalCustom),
      fieldColor 0x73 rt.NormalColor rt.NormalCustom,
      fieldColor 0x74 rt.KeyColor rt.KeyCustom,
      fieldByte 0x75 0,
      fieldBytes 0x76 zeros8,
      fieldBytes 0x77 zeros8]
    match buildPartsList rt.StraightParts 0x13 true a with
    | .error e => .error e
    | .ok (straight, a1) =>
      match fieldList 0x78 straight with
      | .error e => .error e
      | .ok straightField =>
        match buildPartsList rt.CornerParts 0x14 false a1 with
        | .error e => .error e
        | .ok (corners, a2) =>
          match fieldList 0x79 corners with
          | .error e => .error e
          | .ok cornerField =>
            match fieldList 0x7A [] with
            | .error e => .error e
            | .ok emptyField =>
              match buildPartsList rt.TerminatorPart 0x16 false a2 with
              | .error e => .error e
              | .ok (terminators, a3) =>
                match fieldList 0x7B terminators with
                | .error e => .error e
                | .ok terminatorField =>
                  let fields := fields0 ++
                    [straightField, cornerField, emptyField, terminatorField]
                  let entryType := if rt.Typ = 0 then 0x12 else rt.Typ
                  match allocE (useOrDeterministic a3 rt.ID
                      ("rt|".toList ++ goToLower rt.Name)) with
                  | .error e => .error e
                  | .ok (entryID, a4) =>
                    match buildEntry entryType entryID fields with
                    | .error e => .error e
                    | .ok entry => .ok (entry, a4)

/-- `buildRoadTypesEntries`: serialize every configured road type with a
fresh allocator over the file's id set. -/
def buildRoadTypesEntries (cfg : RoadConfig) (existingIDs : List Nat) :
    Except String (List (List Nat)) :=
  let a := newIDAllocator cfg existingIDs
  match cfg.Types.foldl
      (fun (acc : Except String (List (List Nat) × idAllocator)) rt =>
        match acc with
        | .error e => .error e
        | .ok (entries, a) =>
          match buildRoadTypeEntry rt a with
          | .error e => .error e
          | .ok (entry, a') => .ok (entries ++ [entry], a'))
      (.ok ([], a)) with
  | .error e => .error e
  | .ok (entries, _) => .ok entries

/-! ### Id inheritance and the sequential road-type id series -/

/-- Assoc-map insert with Go map overwrite semantics (later wins). -/
def mapPutG {α : Type} (m : List (GoStr × α)) (k : GoStr) (v : α) :
    List (GoStr × α) := m ++ [(k, v)]

/-- Assoc-map lookup with later-wins semantics. -/
def mapGetG {α : Type} (m : List (GoStr × α)) (k : GoStr) : Option α :=
  m.foldl (fun acc p => if p.1 = k then some p.2 else acc) none

/-- `inheritPartListIDs`: fill zero part ids from matching source parts
(by path, falling back to name+path). -/
def inheritPartListIDs (dst src : List RoadPart) : List RoadPart :=
  let byPath := src.foldl
    (fun m p =>
      if p.ID = 0 then m
      else if p.Path ≠ ([] : GoStr) then mapPutG m (goToLower p.Path) p.ID
      else m) []
  let byKey := src.foldl
    (fun m p =>
      if p.ID = 0 then m
      else mapPutG m (goToLower p.Name ++ '|' :: goToLower p.Path) p.ID) []
  dst.map (fun d =>
    if d.ID ≠ 0 then d
    else
      match (if d.Path ≠ ([] : GoStr) then mapGetG byPath (goToLower d.Path)
             else none) with
      | some id => { d with ID := id }
      | none =>
        match mapGetG byKey (goToLower d.Name ++ '|' :: goToLower d.Path) with
        | some id => { d with ID := id }
        | none => d)

/-- `inheritExistingRoadTypeIDs`: preserve road-type and part ids from
the file's types, matched case-insensitively by name. -/
def inheritExistingRoadTypeIDs (types existingTypes : List RoadType) :
    List RoadType :=
  let byName := existingTypes.foldl
    (fun m rt =>
      if rt.Name = ([] : GoStr) then m
      else mapPutG m (goToLower rt.Name) rt) []
  types.map (fun rt =>
    match mapGetG byName (goToLower rt.Name) with
    | none => rt
    | some ex =>
      let rt := if rt.ID = 0 ∧ ex.ID ≠ 0 then { rt with ID := ex.ID } else rt
      { rt with
          StraightParts := inheritPartListIDs rt.StraightParts ex.StraightParts,
          CornerParts := inheritPartListIDs rt.CornerParts ex.CornerParts,
          TerminatorPart :=
            inheritPartListIDs rt.TerminatorPart ex.TerminatorPart })

/-- Fixed road-type id stride (observed host-tool behavior). -/
def stride88 : Nat := 0x48

/-- First inner loop of `applySequentialRoadTypeIDs`: step by the stride
until `next` is non-zero and matches the remainder.  Unbounded in Go;
fuel `u32Mod` covers every state of `next`. -/
def seqLoop1 : Nat → Nat → Nat → Option Nat
  | 0, _, _ => none
  | fuel + 1, rem, next =>
    if next = 0 ∨ next % stride88 ≠ rem then
      seqLoop1 fuel rem ((next + stride88) % u32Mod)
    else some next

/-- Second inner loop of `applySequentialRoadTypeIDs`: step past used
and zero ids, returning the assigned id and the next candidate. -/
def seqLoop2 : Nat → List Nat → Nat → Option (Nat × Nat)
  | 0, _, _ => none
  | fuel + 1, existingIDs, next =>
    if existingIDs.contains next ∨ next = 0 then
      seqLoop2 fuel existingIDs ((next + stride88) % u32Mod)
    else some (next, (next + stride88) % u32Mod)

/-- The per-type assignment loop of `applySequentialRoadTypeIDs`,
threading the used-id map and the next candidate. -/
def applySeqLoop (rem : Nat) :
    List RoadType → List Nat → Nat → Option (List RoadType × List Nat)
  | [], existingIDs, _ => some ([], existingIDs)
  | rt :: rest, existingIDs, next =>
    if rt.ID ≠ 0 then
      match applySeqLoop rem rest existingIDs next with
      | none => none
      | some (ts, ids) => some (rt :: ts, ids)
    else
      match seqLoop1 u32Mod rem next with
      | none => none
      | some n1 =>
        match seqLoop2 u32Mod existingIDs n1 with
        | none => none
        | some (id, n2) =>
          match applySeqLoop rem rest (insertUsed existingIDs id) n2 with
          | none => none
          | some (ts, ids) => some ({ rt with ID := id } :: ts, ids)

/-- The (remainder, have-remainder, max) sample over a list of road
types, as in `applySequentialRoadTypeIDs`. -/
def sampleIDs (s : Nat × Bool × Nat) (types : List RoadType) :
    Nat × Bool × Nat :=
  types.foldl
    (fun s rt =>
      if rt.ID = 0 then s
      else
        let rem := if s.2.1 then s.1 else rt.ID % stride88
        (rem, true, max s.2.2 rt.ID)) s

/-- `applySequentialRoadTypeIDs`: sample the file's remainder and max
(also considering explicit config ids), fall back to remainder 0x0C,
then assign zero ids along the arithmetic progression, skipping
collisions.  Returns the updated types and used-id map. -/
def applySequentialRoadTypeIDs (types existingTypes : List RoadType)
    (existingIDs : List Nat) : Option (List RoadType × List Nat) :=
  let s := sampleIDs (0, false, 0) existingTypes
  let s := sampleIDs s types
  let (rem0, haveRem, maxID) := s
  let rem := if haveRem then rem0 else 0x0C
  let next := (maxID + stride88) % u32Mod
  let off := next % stride88
  let next :=
    if off ≠ rem then
      if off < rem then (next + (rem - off)) % u32Mod
      else (next + ((stride88 - off) + rem)) % u32Mod
    else next
  applySeqLoop rem types existingIDs next

/-! ### File scanning and dependent-offset repair -/

/-- `collectEntryIDs`: scan the whole buffer for `06 00 0D` entry
headers and collect every non-zero identifier. -/
def collectEntryIDs (data : List Nat) : List Nat :=
  (List.range (data.length - 7)).foldl
    (fun used i =>
      if byteAt data i = 0x06 ∧ byteAt data (i + 1) = 0 ∧
          byteAt data (i + 2) = 0x0D then
        let bodyLen := readU32 (data.drop (i + 3))
        if bodyLen < 6 then used
        else
          let bodyStart := i + 7
          if bodyStart + bodyLen > data.length then used
          else
            let id := readU32 (data.drop (bodyStart + 2))
            if id ≠ 0 then insertUsed used id else used
      else used) []

/-- Full pattern match at position `i` (Go `bytes.Index` semantics). -/
def patMatchAt (data pat : List Nat) (i : Nat) : Bool :=
  decide (i + pat.length ≤ data.length) &&
  (List.range pat.length).all (fun j => byteAt data (i + j) = byteAt pat j)

/-- Go `bytes.Index`: first full occurrence of `pat` in `data`. -/
def bytesIndex (data pat : List Nat) : Option Nat :=
  (List.range (data.length + 1 - pat.length)).find? (patMatchAt data pat)

/-- Go `bytes.Contains`. -/
def bytesContains (data pat : List Nat) : Bool := (bytesIndex data pat).isSome

/-- The counting loop of `adjustOffsetsByTag`: count occurrences that
have room for the 4-byte value (`pos+7 <= len`), stopping at the first
occurrence without room.  Each iteration advances, so fuel
`data.length + 1` never runs out. -/
def countRoomyLoop : Nat → List Nat → List Nat → Nat → Nat → Nat
  | 0, _, _, _, count => count
  | fuel + 1, data, pattern, off, count =>
    match bytesIndex (data.drop off) pattern with
    | none => count
    | some idx =>
      let pos := off + idx
      if pos + 7 ≤ data.length then
        countRoomyLoop fuel data pattern (pos + 1) (count + 1)
      else count

/-- Occurrence count used by `adjustOffsetsByTag`. -/
def countRoomy (data pattern : List Nat) : Nat :=
  countRoomyLoop (data.length + 1) data pattern 0 0

/-- `adjustOffsetsByTag`: repair the u32 following the unique
`tag 00 typ` signature by `delta`, clamping at zero; zero delta is a
no-op, and any count other than one is an error. -/
def adjustOffsetsByTag (data : List Nat) (tag typ : Nat) (delta : Int) :
    Except String (List Nat) :=
  if delta = 0 then .ok data
  else if delta < -0x7fffffff ∨ delta > 0x7fffffff then
    .error "offset delta is out of range"
  else
    let pattern := [tag, 0, typ]
    if countRoomy data pattern ≠ 1 then .error "offset tag count mismatch"
    else
      match bytesIndex data pattern with
      | none => .error "offset tag not found"
      | some pos =>
        if pos + 7 > data.length then .error "offset tag not found"
        else
          let valPos := pos + 3
          let cur : Int := (readU32 (data.drop valPos) : Int) + delta
          let cur := if cur < 0 then 0 else cur
          match writeU32FromInt cur with
          | .error e => .error e
          | .ok bytes => .ok (data.take valPos ++ bytes ++ data.drop (pos + 7))

/-- `adjustU32FieldInSlice`: like `adjustOffsetsByTag` but over a slice,
demanding the signature be unique within it. -/
def adjustU32FieldInSlice (b : List Nat) (tag typ : Nat) (delta : Int) :
    Except String (List Nat) :=
  if delta = 0 then .ok b
  else
    let pat := [tag, 0, typ]
    match bytesIndex b pat with
    | none => .error "u32 field not found for adjustment"
    | some pos =>
      if pos + 7 > b.length then .error "u32 field not found for adjustment"
      else if bytesContains (b.drop (pos + 1)) pat then
        .error "u32 field ambiguous for adjustment"
      else
        let cur : Int := (readU32 (b.drop (pos + 3)) : Int) + delta
        let cur := if cur < 0 then 0 else cur
        match writeU32FromInt cur with
        | .error e => .error e
        | .ok bytes => .ok (b.take (pos + 3) ++ bytes ++ b.drop (pos + 7))

/-- `setMetaLinkIDTail`: copy the upper 3 id bytes of the first 0x8A
entry into the unique `19 00 20` field of the meta slice. -/
def setMetaLinkIDTail (meta crossLinksField : List Nat) :
    Except String (List Nat) :=
  let pat := [0x19, 0, 0x20]
  match bytesIndex meta pat with
  | none => .error "crossroads meta 0x19/0x20 field not found"
  | some pos =>
    if pos + 6 > meta.length then
      .error "crossroads meta 0x19/0x20 field not found"
    else if bytesContains (meta.drop (pos + 1)) pat then
      .error "crossroads meta 0x19/0x20 field ambiguous"
    else if crossLinksField.length < 11 then
      .error "invalid 0x8A field bytes"
    else
      let count := readU32 (crossLinksField.drop 7)
      if count = 0 then .ok meta
      else
        let entriesStart := 11
        if crossLinksField.length < entriesStart + 7 + 6 then
          .error "invalid 0x8A entries payload"
        else if ¬(byteAt crossLinksField entriesStart = 0x06 ∧
            byteAt crossLinksField (entriesStart + 1) = 0 ∧
            byteAt crossLinksField (entriesStart + 2) = 0x0D) then
          .error "invalid 0x8A first entry header"
        else
          let bodyLen := readU32 (crossLinksField.drop (entriesStart + 3))
          let bodyStart := entriesStart + 7
          if bodyLen < 6 ∨ crossLinksField.length < bodyStart + 6 then
            .error "invalid 0x8A first entry body"
          else
            let idBytes := (crossLinksField.drop (bodyStart + 2)).take 4
            .ok (meta.take (pos + 3) ++
              [idBytes.getD 1 0, idBytes.getD 2 0, idBytes.getD 3 0] ++
              meta.drop (pos + 6))

/-! ### Crossroad reordering and serialization -/

/-- `shapeScore` (inside `reorderCrossroadsByRoadTypeIndex`). -/
def shapeScore (cr : CrossroadType) : Int :=
  if goStartsWith "kr_t_".toList cr.Name then 2
  else if goStartsWith "kr_x_".toList cr.Name then 1
  else 0

/-- `matchScore`: the empirical default-selection scoring tiers. -/
def matchScore (cr : CrossroadType) (want : GoStr) : Int :=
  if goTrimSpace cr.Default ≠ ([] : GoStr) ∧
      goToLower (goTrimSpace cr.Default) = want then 1000 + shapeScore cr
  else
    let abA := goToLower cr.Connections.A
    let abB := goToLower cr.Connections.B
    let c := goToLower cr.Connections.C
    let d := goToLower cr.Connections.D
    if abA = want ∧ abB = want then 100 + shapeScore cr
    else if abA = want ∨ abB = want then 80 + shapeScore cr
    else if c = want ∨ d = want then 60 + shapeScore cr
    else -1

/-- One `rtIdx` step of `reorderCrossroadsByRoadTypeIndex`: find the
best-scoring unlocked crossroad and swap it into position `rtIdx`. -/
def reorderStep (types : List RoadType)
    (state : List CrossroadType × List Bool) (rtIdx : Nat) :
    List CrossroadType × List Bool :=
  let (crs, locked) := state
  let wantAB := goToLower ((types.getD rtIdx {}).Name)
  if wantAB = ([] : GoStr) then state
  else
    let best := (List.range crs.length).foldl
      (fun (b : Int × Option Nat) j =>
        if locked.getD j false ∧ j ≠ rtIdx then b
        else
          let s := matchScore (crs.getD j {}) wantAB
          if s < 0 then b
          else if s > b.1 then (s, some j) else b) (-1, none)
    match best.2 with
    | none => state
    | some bestJ =>
      if bestJ = rtIdx then state
      else
        let ci := crs.getD rtIdx {}
        let cj := crs.getD bestJ {}
        ((crs.set rtIdx cj).set bestJ ci, locked.set rtIdx true)

/-- `reorderCrossroadsByRoadTypeIndex`. -/
def reorderCrossroadsByRoadTypeIndex (types : List RoadType)
    (crs : List CrossroadType) : List CrossroadType :=
  if types.length = 0 ∨ crs.length = 0 then crs
  else
    let limit := min types.length crs.length
    ((List.range limit).foldl (reorderStep types)
      (crs, List.replicate crs.length false)).1

/-- `shouldReorderCrossroads`. -/
def shouldReorderCrossroads (cfg : RoadConfig) : Bool :=
  let crs := cfg.CrossroadTypes.getD []
  if crs.length = 0 ∨ cfg.Types.length = 0 then false
  else if crs.any (fun cr => goTrimSpace cr.Default ≠ ([] : GoStr)) then true
  else crs.any (fun cr => cr.TV4PDef.isNone && cr.TV4PLink.isNone)

/-- The `nameToIdx` map of `buildCrossroadFields` (exact-name keys,
later index wins). -/
def nameToIdxLookup (types : List RoadType) (name : GoStr) : Option Nat :=
  (List.range types.length).foldl
    (fun acc i => if (types.getD i {}).Name = name then some i else acc) none

/-- Fixed crossroad-definition id stride. -/
def stride89 : Nat := 0x178

/-- One base attempt of `allocateCrossroadDefIDs`: candidate ids
`cur + idx*stride` for the generated entries, failing on range overflow,
zero or collision. -/
def allocDefTry (crossroads : List CrossroadType) (used : List Nat)
    (cur : Nat) : Option (List Nat) :=
  (List.range crossroads.length).foldl
    (fun (acc : Option (List Nat)) i =>
      match acc with
      | none => none
      | some out =>
        if (crossroads.getD i {}).TV4PDef.isSome then some (out ++ [0])
        else
          let id64 := cur + i * stride89
          if id64 > 0xFFFFFFFF then none
          else if id64 = 0 then none
          else if used.contains id64 then none
          else some (out ++ [id64])) (some [])

/-- The bounded attempt loop of `allocateCrossroadDefIDs` (4096
attempts in the source). -/
def allocDefSearch (crossroads : List CrossroadType) (used : List Nat)
    (base : Nat) : Nat → Nat → Option (List Nat)
  | 0, _ => none
  | fuel + 1, attempt =>
    match allocDefTry crossroads used ((base + attempt) % u32Mod) with
    | some out => some out
    | none => allocDefSearch crossroads used base fuel (attempt + 1)

/-- `allocateCrossroadDefIDs`: batch-allocate generated crossroad ids on
one arithmetic sequence, falling back to per-entry allocation. -/
def allocateCrossroadDefIDs (crossroads : List CrossroadType)
    (a : idAllocator) : Option (List Nat × idAllocator) :=
  if crossroads.length = 0 then some ([], a)
  else
    let need := (crossroads.filter (fun cr => cr.TV4PDef.isNone)).length
    if need = 0 then some (List.replicate crossroads.length 0, a)
    else
      let base := a.next
      let base := if base % 4 ≠ 0 then (base + (4 - base % 4)) % u32Mod
        else base
      match allocDefSearch crossroads a.used base 4096 0 with
      | some out =>
        let a := out.foldl
          (fun (a : idAllocator) id =>
            if id ≠ 0 then
              let used := insertUsed a.used id
              let next := if id ≥ a.next then (id + 1) % u32Mod else a.next
              { used := used, next := next }
            else a) a
        let next := if a.next % 4 ≠ 0 then (a.next + (4 - a.next % 4)) % u32Mod
          else a.next
        some (out, { a with next := next })
      | none =>
        crossroads.foldl
          (fun (acc : Option (List Nat × idAllocator)) cr =>
            match acc with
            | none => none
            | some (out, a) =>
              if cr.TV4PDef.isSome then some (out ++ [0], a)
              else
                match allocNext a with
                | none => none
                | some (id, a') => some (out ++ [id], a'))
          (some ([], a))

/-- Bytes of `vec2f64Hex 0 0` (type 0x15: point count then two IEEE754
doubles; `Float64bits 0 = 0`, and the source only calls it at the
origin). -/
def vec2f64Bytes00 : List Nat := 2 :: List.replicate 16 0

/-- `rgbaHex` as bytes. -/
def rgbaBytes (c : Color) : List Nat :=
  [c.R % 256, c.G % 256, c.B % 256, c.A % 256]

mutual

/-- `rawEntryToBytes`: serialize a verbatim-preserved raw entry,
allocating an id when it carries none. -/
def rawEntryToBytes : EntryRaw → idAllocator → GoStr →
    Except String (List Nat × idAllocator)
  | .mk typ eid fs, a, seed =>
    if typ = 0 then .error "raw entry missing type"
    else
      match (if eid = 0 then allocE (useOrDeterministic a 0 seed)
             else .ok (eid, a)) with
      | .error err => .error err
      | .ok (id, a1) =>
        match rawFieldListToBytes fs a1 seed with
        | .error err => .error err
        | .ok (fields, a2) =>
          match buildEntry typ id fields with
          | .error err => .error err
          | .ok bytes => .ok (bytes, a2)

/-- Serialize the raw fields of an entry in order. -/
def rawFieldListToBytes : List FieldRaw → idAllocator → GoStr →
    Except String (List (List Nat) × idAllocator)
  | [], a, _ => .ok ([], a)
  | f :: rest, a, seed =>
    match rawFieldToBytes f a seed with
    | .error err => .error err
    | .ok (b, a1) =>
      match rawFieldListToBytes rest a1 seed with
      | .error err => .error err
      | .ok (bs, a2) => .ok (b :: bs, a2)

/-- Serialize a nested raw entry list with the derived sub-seeds. -/
def rawEntryListToBytes : List EntryRaw → idAllocator → GoStr →
    Except String (List (List Nat) × idAllocator)
  | [], a, _ => .ok ([], a)
  | re :: rest, a, seed =>
    let rseed := seed ++ "|sub|".toList ++ itoaN re.typ ++ "|".toList ++
      itoaN re.id
    match rawEntryToBytes re a rseed with
    | .error err => .error err
    | .ok (b, a1) =>
      match rawEntryListToBytes rest a1 seed with
      | .error err => .error err
      | .ok (bs, a2) => .ok (b :: bs, a2)

/-- `rawFieldToBytes`: type-directed raw field serialization; unknown
type codes are a hard error. -/
def rawFieldToBytes : FieldRaw → idAllocator → GoStr →
    Except String (List Nat × idAllocator)
  | .mk tag typ raw list, a, seed =>
    if typ = 0x0C then
      match rawEntryListToBytes list a seed with
      | .error err => .error err
      | .ok (entries, a1) =>
        match fieldList tag entries with
        | .error err => .error err
        | .ok b => .ok (b, a1)
    else if typ = 0x0B then
      match writeU16FromNat raw.length with
      | .error err => .error err
      | .ok lenB => .ok ([tag, 0, typ] ++ lenB ++ raw.map (· % 256), a)
    else if typ = 0x09 ∨ typ = 0x08 ∨ typ = 0x14 ∨ typ = 0x05 ∨
        typ = 0x0D ∨ typ = 0x15 ∨ typ = 0x20 then
      .ok ([tag, 0, typ] ++ raw.map (· % 256), a)
    else .error "unsupported raw field type"

end

/-- Resolve one connection side name against the `nameToIdx` map, as in
`buildCrossroadDefEntry` (empty means unset, `0xFFFFFFFF`). -/
def connIdx (types : List RoadType) (side : GoStr) :
    Except String Nat :=
  if side = ([] : GoStr) then .ok 0xFFFFFFFF
  else
    match nameToIdxLookup types side with
    | some i => .ok i
    | none => .error "unknown road type for connection"

/-- `buildCrossroadDefEntry`: replay the raw definition when present,
otherwise synthesize the canonical 0x17 entry. -/
def buildCrossroadDefEntry (cr : CrossroadType) (a : idAllocator)
    (types : List RoadType) (forcedID : Nat) :
    Except String (List Nat × idAllocator) :=
  let seed := "crdef|".toList ++ goToLower cr.Name ++ "|".toList ++
    goToLower cr.Model
  match cr.TV4PDef with
  | some raw =>
    if raw.typ = 0x17 then rawEntryToBytes raw a seed
    else buildFreshCrossroadDef cr a types forcedID seed
  | none => buildFreshCrossroadDef cr a types forcedID seed
where
  /-- The freshly synthesized 0x17 entry of `buildCrossroadDefEntry`. -/
  buildFreshCrossroadDef (cr : CrossroadType) (a : idAllocator)
      (types : List RoadType) (forcedID : Nat) (seed : GoStr) :
      Except String (List Nat × idAllocator) :=
    let shapeU32 : Nat :=
      if goStartsWith "kr_x_".toList cr.Name then 3 else 2
    match connIdx types cr.Connections.A with
    | .error e => .error e
    | .ok ca =>
      match connIdx types cr.Connections.B with
      | .error e => .error e
      | .ok cb =>
        match connIdx types cr.Connections.C with
        | .error e => .error e
        | .ok cc =>
          match connIdx types cr.Connections.D with
          | .error e => .error e
          | .ok cd =>
            let raw : EntryRaw := .mk 0x17 forcedID
              [.mk 0x33 0x0B (strBytes cr.Name) [],
               .mk 0x7C 0x0B (strBytes cr.Model) [],
               .mk 0x7F 0x05 (u32Bytes shapeU32) [],
               .mk 0x71 0x09 [if cr.ColorCustom then 1 else 0] [],
               .mk 0x73 0x08 (if cr.ColorCustom then rgbaBytes cr.Color
                              else [0, 0, 0xFF, 0]) [],
               .mk 0x75 0x09 [0] [],
               .mk 0x80 0x14 zeros8 [],
               .mk 0x81 0x14 zeros8 [],
               .mk 0x82 0x14 zeros8 [],
               .mk 0x83 0x09 [0] [],
               .mk 0x84 0x05 (u32Bytes ca) [],
               .mk 0x85 0x05 (u32Bytes cb) [],
               .mk 0x86 0x05 (u32Bytes cc) [],
               .mk 0x87 0x05 (u32Bytes cd) []]
            rawEntryToBytes raw a seed

/-- `refFor` inside `buildCrossroadSideLists`: pick the representative
straight-part path of a road type. -/
def refForPath (byName : List (GoStr × RoadType)) (rtName : GoStr) :
    Except String GoStr :=
  if rtName = ([] : GoStr) then .ok []
  else
    match mapGetG byName rtName with
    | none => .error "unknown road type"
    | some rt =>
      let want := rtName ++ "_12".toList
      match rt.StraightParts.find? (fun p => p.Name = want) with
      | some p => .ok p.Path
      | none =>
        let best := rt.StraightParts.foldl
          (fun (b : GoStr × GoStr) p =>
            if b.1 = ([] : GoStr) ∨ goStrLt p.Name b.1 then (p.Name, p.Path)
            else b) ([], [])
        .ok best.2

/-- `mkRefEntry` inside `buildCrossroadSideLists`. -/
def mkRefEntry (cr : CrossroadType) (a : idAllocator) (side : GoStr)
    (path : GoStr) : Except String (EntryRaw × idAllocator) :=
  match allocE (useOrDeterministic a 0
      ("crref|".toList ++ goToLower cr.Model ++ "|".toList ++ side ++
        "|".toList ++ goToLower path)) with
  | .error e => .error e
  | .ok (id, a1) =>
    .ok (.mk 0x1B id
      [.mk 0x7F 0x05 (u32Bytes 3) [],
       .mk 0x6C 0x05 (u32Bytes 1) [],
       .mk 0x33 0x0B (strBytes path) []], a1)

/-- `buildCrossroadSideLists`: per-side reference entry lists
(0x92/0x93/0x94/0x95 for A/B/C/D). -/
def buildCrossroadSideLists (cr : CrossroadType) (a : idAllocator)
    (roadTypes : List RoadType) :
    Except String ((List EntryRaw × List EntryRaw × List EntryRaw ×
      List EntryRaw) × idAllocator) :=
  let byName := roadTypes.foldl (fun m rt => mapPutG m rt.Name rt) []
  match refForPath byName cr.Connections.A with
  | .error e => .error e
  | .ok aPath =>
    match refForPath byName cr.Connections.B with
    | .error e => .error e
    | .ok bPath =>
      match refForPath byName cr.Connections.C with
      | .error e => .error e
      | .ok cPath =>
        match refForPath byName cr.Connections.D with
        | .error e => .error e
        | .ok dPath =>
          match (if aPath ≠ ([] : GoStr) then
              (mkRefEntry cr a "A".toList aPath).map
                (fun (e, a') => ([e], a'))
            else .ok ([], a)) with
          | .error e => .error e
          | .ok (lA, a1) =>
            match (if bPath ≠ ([] : GoStr) then
                (mkRefEntry cr a1 "B".toList bPath).map
                  (fun (e, a') => ([e], a'))
              else .ok ([], a1)) with
            | .error e => .error e
            | .ok (lB, a2) =>
              match (if cPath ≠ ([] : GoStr) then
                  (mkRefEntry cr a2 "C".toList cPath).map
                    (fun (e, a') => ([e], a'))
                else .ok ([], a2)) with
              | .error e => .error e
              | .ok (lC, a3) =>
                match (if dPath ≠ ([] : GoStr) then
                    (mkRefEntry cr a3 "D".toList dPath).map
                      (fun (e, a') => ([e], a'))
                  else .ok ([], a3)) with
                | .error e => .error e
                | .ok (lD, a4) => .ok ((lA, lB, lC, lD), a4)

/-- `buildCrossroadLinkEntry`: replay the raw 0x1A link entry when
present; otherwise synthesize the minimal template with the A-side
reference list. -/
def buildCrossroadLinkEntry (cr : CrossroadType) (a : idAllocator)
    (roadTypes : List RoadType) : Except String (List Nat × idAllocator) :=
  let seed := "crlink|".toList ++ goToLower cr.Name ++ "|".toList ++
    goToLower cr.Model
  match cr.TV4PLink with
  | some raw =>
    if raw.typ = 0x1A then rawEntryToBytes raw a seed
    else buildFreshLink cr a roadTypes seed
  | none => buildFreshLink cr a roadTypes seed
where
  /-- The freshly synthesized 0x1A entry of `buildCrossroadLinkEntry`. -/
  buildFreshLink (cr : CrossroadType) (a : idAllocator)
      (roadTypes : List RoadType) (seed : GoStr) :
      Except String (List Nat × idAllocator) :=
    let shapeU32 : Nat :=
      if goStartsWith "kr_x_".toList cr.Name then 3 else 2
    match allocE (useOrDeterministic a 0 seed) with
    | .error e => .error e
    | .ok (id, a1) =>
      match buildCrossroadSideLists cr a1 roadTypes with
      | .error e => .error e
      | .ok ((lA, _, _, _), a2) =>
        let raw : EntryRaw := .mk 0x1A id
          [.mk 0x8C 0x14 zeros8 [],
           .mk 0x8D 0x14 zeros8 [],
           .mk 0x8E 0x15 vec2f64Bytes00 [],
           .mk 0x8F 0x05 (u32Bytes 0) [],
           .mk 0x90 0x05 (u32Bytes shapeU32) [],
           .mk 0x91 0x0B (strBytes cr.Model) [],
           .mk 0x92 0x0C [] (if lA.length > 0 then lA else []),
           .mk 0x93 0x0C [] [],
           .mk 0x94 0x0C [] [],
           .mk 0x95 0x0C [] []]
        rawEntryToBytes raw a2 seed

/-- The definition-entry loop of `buildCrossroadFields`, consuming the
pre-allocated ids positionally. -/
def buildDefEntriesLoop (types : List RoadType) :
    List CrossroadType → List Nat → idAllocator →
    Except String (List (List Nat) × idAllocator)
  | [], _, a => .ok ([], a)
  | cr :: rest, ids, a =>
    match buildCrossroadDefEntry cr a types (ids.headD 0) with
    | .error e => .error e
    | .ok (e, a1) =>
      match buildDefEntriesLoop types rest ids.tail a1 with
      | .error e => .error e
      | .ok (es, a2) => .ok (e :: es, a2)

/-- `buildCrossroadFields`: serialize the 0x89 list and (when links are
written back) the 0x8A list. -/
def buildCrossroadFields (cfg : RoadConfig) (existingIDs : List Nat)
    (includeLinks : Bool) : Except String (List Nat × List Nat) :=
  let a := newIDAllocator cfg existingIDs
  let crs := cfg.CrossroadTypes.getD []
  match allocateCrossroadDefIDs crs a with
  | none => .error "id allocation loop exhausted"
  | some (defIDs, a1) =>
    match buildDefEntriesLoop cfg.Types crs defIDs a1 with
    | .error e => .error e
    | .ok (defEntries, a2) =>
      match fieldList 0x89 defEntries with
      | .error e => .error e
      | .ok defField =>
        if !includeLinks then .ok (defField, [])
        else
          match crs.find? (fun cr =>
              match cr.TV4PLink with
              | some r => r.typ = 0x1A
              | none => false) with
          | none =>
            match fieldList 0x8A [] with
            | .error e => .error e
            | .ok linkField => .ok (defField, linkField)
          | some picked =>
            match buildCrossroadLinkEntry picked a2 cfg.Types with
            | .error e => .error e
            | .ok (entry, _) =>
              match fieldList 0x8A [entry] with
              | .error e => .error e
              | .ok linkField => .ok (defField, linkField)

/-! ### Replacement splicing and the patch driver (PatchRoadTool) -/

/-- `replacement` (write.go): a byte-range replacement. -/
structure Replacement where
  blob : List Nat := []
  start : Nat := 0
  endPos : Nat := 0
deriving DecidableEq, Repr

instance : Inhabited Replacement := ⟨{}⟩

/-- Inner loop of `sortReplsDesc` for a fixed `i`: bubble any
later replacement with a greater start into position `i` (fuel counts
the remaining `j` iterations). -/
def sortReplsInner (n i : Nat) : Nat → Nat → List Replacement →
    List Replacement
  | 0, _, repls => repls
  | fuel + 1, j, repls =>
    if j < n then
      let ri := repls.getD i default
      let rj := repls.getD j default
      let repls' := if rj.start > ri.start then (repls.set i rj).set j ri
        else repls
      sortReplsInner n i fuel (j + 1) repls'
    else repls

/-- Outer loop of `sortReplsDesc`. -/
def sortReplsOuter (n : Nat) : Nat → Nat → List Replacement →
    List Replacement
  | 0, _, repls => repls
  | fuel + 1, i, repls =>
    if i < n then
      sortReplsOuter n fuel (i + 1) (sortReplsInner n i n (i + 1) repls)
    else repls

/-- `sortReplsDesc`: sort replacements by start offset, descending
(the source's double swap loop). -/
def sortReplsDesc (repls : List Replacement) : List Replacement :=
  sortReplsOuter repls.length repls.length 0 repls

/-- The application loop of `PatchRoadTool`: splice each replacement
(bounds-checked) and accumulate the total byte delta. -/
def applyRepls : List Replacement → List Nat → Int →
    Except String (List Nat × Int)
  | [], out, totalDelta => .ok (out, totalDelta)
  | r :: rest, out, totalDelta =>
    if r.endPos < r.start ∨ r.endPos > out.length then
      .error "invalid replacement range"
    else
      let oldLen := r.endPos - r.start
      let totalDelta' := totalDelta + (r.blob.length : Int) - (oldLen : Int)
      applyRepls rest (out.take r.start ++ r.blob ++ out.drop r.endPos)
        totalDelta'

/-- The roads branch of `PatchRoadTool` (scope includes roads):
id inheritance, sequential id assignment, serialization of the 0x88
field, and its replacement record. -/
def roadsPhase (cfg : RoadConfig) (block : RoadTypesBlock)
    (existingIDs : List Nat) :
    Except String (RoadConfig × List Nat × List Replacement × Int) :=
  if cfg.Types.length = 0 then
    .error "scope=roads requires road_types in config"
  else
    let types1 := if cfg.Types.length = block.Types.length then
        inheritExistingRoadTypeIDs cfg.Types block.Types
      else cfg.Types
    match applySequentialRoadTypeIDs types1 block.Types existingIDs with
    | none => .error "id allocation loop exhausted"
    | some (types2, existingIDs') =>
      let cfg' := { cfg with Types := types2 }
      match buildRoadTypesEntries cfg' existingIDs' with
      | .error e => .error e
      | .ok entries =>
        match fieldList 0x88 entries with
        | .error e => .error e
        | .ok roadTypesField =>
          let new88ListLen : Int := (readU32 (roadTypesField.drop 3) : Int)
          let delta88 := (new88ListLen - 4) - ((block.ListLen : Int) - 4)
          let oldRoadTypesLen := 7 + block.ListLen
          .ok (cfg', existingIDs',
            [{ start := block.Start, endPos := block.Start + oldRoadTypesLen,
               blob := roadTypesField }], delta88)

/-- The crossroads branch of `PatchRoadTool` (scope includes crossroads
and the config carries a non-nil crossroad list). -/
def crossroadsPhase (data : List Nat) (cfg : RoadConfig)
    (block : RoadTypesBlock) (existingIDs : List Nat)
    (crDefs crLinks : taggedList) :
    Except String (List Replacement × Int × Int) :=
  if ¬(crDefs.Found ∧ crLinks.Found) then
    .error "crossroad lists not found near Road Tool block"
  else
    let cfg := if cfg.Types.length = 0 then { cfg with Types := block.Types }
      else cfg
    match ValidateCrossroads (cfg.CrossroadTypes.getD []) cfg.Types with
    | .error e => .error e
    | .ok _ =>
      let cfg := if shouldReorderCrossroads cfg then
          { cfg with CrossroadTypes := some (reorderCrossroadsByRoadTypeIndex
              cfg.Types (cfg.CrossroadTypes.getD [])) }
        else cfg
      let hasRawLink := (cfg.CrossroadTypes.getD []).any
        (fun cr => cr.TV4PLink.isSome)
      let writeLinks := hasRawLink
      match buildCrossroadFields cfg existingIDs writeLinks with
      | .error e => .error e
      | .ok (crossDefsField, crossLinksField) =>
        let new89ListLen : Int := (readU32 (crossDefsField.drop 3) : Int)
        let delta89 := (new89ListLen - 4) - ((crDefs.ListLen : Int) - 4)
        let metaStart := crDefs.Start + crDefs.FieldLen
        let metaEnd := crLinks.Start
        if metaEnd < metaStart ∨ metaEnd > data.length then
          .error "invalid crossroads meta range"
        else
          let defsRepl : Replacement :=
            { start := crDefs.Start, endPos := crDefs.Start + crDefs.FieldLen,
              blob := crossDefsField }
          if writeLinks then
            let new8AListLen : Int := (readU32 (crossLinksField.drop 3) : Int)
            let delta8A := (new8AListLen - 4) - ((crLinks.ListLen : Int) - 4)
            let metaBytes := (data.drop metaStart).take (metaEnd - metaStart)
            match (if delta8A ≠ 0 then
                adjustU32FieldInSlice metaBytes 0x3F 0x0D delta8A
              else .ok metaBytes) with
            | .error e => .error e
            | .ok metaBytes1 =>
              match setMetaLinkIDTail metaBytes1 crossLinksField with
              | .error e => .error e
              | .ok metaBytes2 =>
                .ok ([defsRepl,
                      { start := metaStart, endPos := metaEnd,
                        blob := metaBytes2 },
                      { start := crLinks.Start,
                        endPos := crLinks.Start + crLinks.FieldLen,
                        blob := crossLinksField }], delta89, delta8A)
          else .ok ([defsRepl], delta89, 0)

/-- The planning part of `PatchRoadTool`: everything before the splice
loop, yielding the replacement set and the three list deltas. -/
def patchCore (data : List Nat) (cfg : RoadConfig) (scope : Scope) :
    Except String (List Replacement × Int × Int × Int) :=
  match ParseRoadTypes data with
  | .error e => .error e
  | .ok block =>
    let existingIDs := collectEntryIDs data
    match (if scope.IncludesRoads then roadsPhase cfg block existingIDs
           else .ok (cfg, existingIDs, ([] : List Replacement), (0 : Int))) with
    | .error e => .error e
    | .ok (cfg1, existingIDs1, repls1, d88) =>
      let afterRoadTypes := block.Start + 7 + block.ListLen
      let crDefs := (findTaggedListAfter data afterRoadTypes 0x89
        validateCrossroadDefs).1
      let crLinks := (findTaggedListAfter data afterRoadTypes 0x8A
        validateCrossroadLinks).1
      if scope.IncludesCrossroads ∧ cfg1.CrossroadTypes.isSome then
        match crossroadsPhase data cfg1 block existingIDs1 crDefs crLinks with
        | .error e => .error e
        | .ok (repls2, d89, d8A) => .ok (repls1 ++ repls2, d88, d89, d8A)
      else .ok (repls1, d88, 0, 0)

/-- The dependent-offset repair at the end of `PatchRoadTool`:
`0x18/0x0D` accumulates all three deltas, `0x3E/0x0D` only the two list
deltas, and nothing is touched when the total splice delta is zero. -/
def adjustDependentOffsets (out : List Nat) (totalDelta d88 d89 d8A : Int) :
    Except String (List Nat) :=
  if totalDelta ≠ 0 then
    match adjustOffsetsByTag out 0x18 0x0D (d88 + d89 + d8A) with
    | .error e => .error e
    | .ok out1 =>
      match adjustOffsetsByTag out1 0x3E 0x0D (d88 + d89) with
      | .error e => .error e
      | .ok out2 => .ok out2
  else .ok out

/-- `PatchRoadTool` from write.go: plan, splice descending, repair the
dependent offsets. -/
def PatchRoadTool (data : List Nat) (cfg : RoadConfig) (scope : Scope) :
    Except String (List Nat) :=
  match patchCore data cfg scope with
  | .error e => .error e
  | .ok (repls, d88, d89, d8A) =>
    match applyRepls (sortReplsDesc repls) data 0 with
    | .error e => .error e
    | .ok (out, totalDelta) => adjustDependentOffsets out totalDelta d88 d89 d8A

/-- `PatchRoadTypes`: patch with full scope. -/
def PatchRoadTypes (data : List Nat) (cfg : RoadConfig) :
    Except String (List Nat) :=
  PatchRoadTool data cfg .all

end Tv4p

namespace Roadparts

open Tv4p (GoStr goStartsWith goDropPre goSplit goJoin goTrimSuf goEndsWith
  goFields goIsSpace goLastIndexChar)

/-! ### Crossroad-name grammar (internal/roadparts/crossroads.go) -/

/-- `CrossroadShape`. -/
inductive CrossroadShape : Type where
  | unknown
  | t
  | x
deriving DecidableEq, Repr

/-- `CrossroadName`: semantic meaning of a crossroad model name. -/
structure CrossroadName where
  AB : GoStr := []
  C : GoStr := []
  D : GoStr := []
  Shape : CrossroadShape := .unknown
deriving DecidableEq, Repr

/-- `ParseCrossroadBase`: parse `kr_t_*` / `kr_x_*` names; `none` is
Go's `ok = false`. -/
def ParseCrossroadBase (base : GoStr) : Option CrossroadName :=
  if goStartsWith "kr_t_".toList base then
    let rest := goDropPre "kr_t_".toList base
    let parts := goSplit rest '_'
    if parts.length ≠ 2 ∨ parts.getD 0 [] = ([] : GoStr) ∨
        parts.getD 1 [] = ([] : GoStr) then none
    else some { Shape := .t, AB := parts.getD 0 [], C := parts.getD 1 [] }
  else if goStartsWith "kr_x_".toList base then
    let rest := goDropPre "kr_x_".toList base
    let parts := goSplit rest '_'
    if parts.length < 2 ∨ parts.getD 0 [] = ([] : GoStr) ∨
        parts.getD 1 [] = ([] : GoStr) then none
    else
      let out : CrossroadName :=
        { Shape := .x, AB := parts.getD 0 [], C := parts.getD 1 [] }
      let out := if parts.length ≥ 3 then
          { out with D := goJoin (parts.drop 2) '_' } else { out with D := out.C }
      let out := if out.D = ([] : GoStr) then { out with D := out.C } else out
      some out
  else none

/-! ### Road-part filename grammar (internal/roadparts files) -/

/-- `Kind`. -/
inductive Kind : Type where
  | unknown
  | straight
  | corner
  | terminator
  | crosswalk
  | crossroad
deriving DecidableEq, Repr

/-- `Parsed`. -/
structure Parsed where
  TypeName : GoStr := []
  Name : GoStr := []
  Kind : Kind := .unknown
deriving DecidableEq, Repr

/-- `isDigits`. -/
def isDigits (s : GoStr) : Bool :=
  s.all (fun c => '0' ≤ c ∧ c ≤ '9') && s ≠ ([] : GoStr)

/-- `ParseBase`: classify a road-part base filename; `none` is Go's
`ok = false`. -/
def ParseBase (base : GoStr) : Option Parsed :=
  let orig := base
  if goStartsWith "kr_t_".toList base || goStartsWith "kr_x_".toList base then
    some { TypeName := "crossroad".toList, Name := orig, Kind := .crossroad }
  else
    let isCrosswalk := goEndsWith "_crosswalk".toList base
    let base := if isCrosswalk then goTrimSuf "_crosswalk".toList base else base
    let isTerminator := goEndsWith "konec".toList base
    let base := if isTerminator then goTrimSuf "konec".toList base else base
    match goLastIndexChar base '_' with
    | none => none
    | some idx =>
      if idx = 0 ∨ idx = base.length - 1 then none
      else
        let typeName := base.take idx
        let rest := base.drop (idx + 1)
        if typeName = ([] : GoStr) ∨ rest = ([] : GoStr) then none
        else if isTerminator then
          if !isDigits rest then none
          else some { TypeName := typeName, Name := orig, Kind := .terminator }
        else
          let fields := goFields rest
          if fields.length = 2 && isDigits (fields.getD 0 []) &&
              isDigits (fields.getD 1 []) then
            some { TypeName := typeName, Name := orig, Kind := .corner }
          else if fields.length = 1 && isDigits (fields.getD 0 []) then
            if isCrosswalk then
              some { TypeName := typeName, Name := orig, Kind := .crosswalk }
            else some { TypeName := typeName, Name := orig, Kind := .straight }
          else some { TypeName := typeName, Name := orig, Kind := .unknown }

end Roadparts

namespace Tv4p

/-! ## Helper lemmas -/

/-- A prefix of a prefix is a prefix. -/
theorem goStartsWith_append (p q s : GoStr) :
    goStartsWith (p ++ q) s = true → goStartsWith p s = true := by
  induction p generalizing s with
  | nil => intro _; rfl
  | cons c cs ih =>
    intro h
    cases s with
    | nil => simp [goStartsWith] at h
    | cons d ds =>
      simp only [List.cons_append, goStartsWith, Bool.and_eq_true] at h ⊢
      exact ⟨h.1, ih ds h.2⟩

/-- `goStartsWith` holds on a literal extension. -/
theorem goStartsWith_self_append (p rest : GoStr) :
    goStartsWith p (p ++ rest) = true := by
  induction p with
  | nil => rfl
  | cons c cs ih => simp [goStartsWith, ih]

end Tv4p

namespace Roadparts

open Tv4p

/-! ## C9: grammar rejection -/

/-- C9: the crossroad-name parser rejects `"kr_t_asf1_"` and the
road-part filename parser rejects `"asf1_"`; in general crossroad-name
parsing fails when the `kr_` prefix is absent or a required name
component (either of the first two underscore-separated components
after the shape prefix) is empty. -/
theorem C9_grammar_rejection :
    ParseCrossroadBase "kr_t_asf1_".toList = none ∧
    ParseBase "asf1_".toList = none ∧
    (∀ s : GoStr, goStartsWith "kr_".toList s = false →
      ParseCrossroadBase s = none) ∧
    (∀ s rest : GoStr, s = "kr_t_".toList ++ rest →
      ((goSplit rest '_').getD 0 [] = ([] : GoStr) ∨
       (goSplit rest '_').getD 1 [] = ([] : GoStr)) →
      ParseCrossroadBase s = none) ∧
    (∀ s rest : GoStr, s = "kr_x_".toList ++ rest →
      ((goSplit rest '_').getD 0 [] = ([] : GoStr) ∨
       (goSplit rest '_').getD 1 [] = ([] : GoStr)) →
      ParseCrossroadBase s = none) := by
  refine ⟨by decide, by decide, ?_, ?_, ?_⟩
  · intro s h
    have ht : goStartsWith "kr_t_".toList s = false := by
      cases hk : goStartsWith "kr_t_".toList s with
      | false => rfl
      | true =>
        have hk' : goStartsWith ("kr_".toList ++ "t_".toList) s = true := hk
        have := goStartsWith_append "kr_".toList "t_".toList s hk'
        rw [this] at h; cases h
    have hx : goStartsWith "kr_x_".toList s = false := by
      cases hk : goStartsWith "kr_x_".toList s with
      | false => rfl
      | true =>
        have hk' : goStartsWith ("kr_".toList ++ "x_".toList) s = true := hk
        have := goStartsWith_append "kr_".toList "x_".toList s hk'
        rw [this] at h; cases h
    unfold ParseCrossroadBase
    simp only [ht, hx]
    simp
  · intro s rest hs hempty
    subst hs
    have hred : ParseCrossroadBase ("kr_t_".toList ++ rest) =
        (if (goSplit rest '_').length ≠ 2 ∨
            (goSplit rest '_').getD 0 [] = ([] : GoStr) ∨
            (goSplit rest '_').getD 1 [] = ([] : GoStr) then none
         else some { Shape := .t, AB := (goSplit rest '_').getD 0 [],
                     C := (goSplit rest '_').getD 1 [] }) := by
      have hpre : goStartsWith "kr_t_".toList ("kr_t_".toList ++ rest) =
          true := goStartsWith_self_append _ _
      have hdrop : goDropPre "kr_t_".toList ("kr_t_".toList ++ rest) =
          rest := by simp [goDropPre]
      unfold ParseCrossroadBase
      simp only [hpre, hdrop, if_true]
    rw [hred]
    rcases hempty with h | h <;>
      rw [List.getD_eq_getElem?_getD] at h <;> simp [h]
  · intro s rest hs hempty
    subst hs
    have ht : goStartsWith "kr_t_".toList ("kr_x_".toList ++ rest) = false := by
      rfl
    have hpre : goStartsWith "kr_x_".toList ("kr_x_".toList ++ rest) = true :=
      goStartsWith_self_append _ _
    have hdrop : goDropPre "kr_x_".toList ("kr_x_".toList ++ rest) = rest := by
      simp [goDropPre]
    unfold ParseCrossroadBase
    simp only [ht, hpre, hdrop, if_true, Bool.false_eq_true, if_false]
    rcases hempty with h | h <;>
      rw [List.getD_eq_getElem?_getD] at h <;> simp [h]

/-- Witness for C9 at concrete inputs. -/
theorem C9_grammar_rejection_witness :
    ParseCrossroadBase "highway".toList = none ∧
    ParseCrossroadBase "kr_t__asf2".toList = none ∧
    ParseCrossroadBase "kr_x_asf1_".toList = none := by
  refine ⟨?_, ?_, ?_⟩
  · exact C9_grammar_rejection.2.2.1 "highway".toList (by decide)
  · exact C9_grammar_rejection.2.2.2.1 "kr_t__asf2".toList "_asf2".toList
      (by decide) (by decide)
  · exact C9_grammar_rejection.2.2.2.2 "kr_x_asf1_".toList "asf1_".toList
      (by decide) (by decide)

end Roadparts

namespace Tv4p

/-! ## C10: color field encoding -/

/-- C10: for freshly synthesized road-type entries the color fields
always store an alpha byte of 0xFF; with the custom flag false the
stored RGBA is `00 00 00 FF` regardless of the configured color; and
every freshly built road-type entry contains the 0x73/0x74 color fields
encoded exactly this way. -/
theorem C10_fieldColor_encoding :
    (∀ tag c, fieldColor tag c false = [tag, 0, 0x08, 0, 0, 0, 0xFF]) ∧
    (∀ tag c custom, (fieldColor tag c custom).getD 6 0 = 0xFF) ∧
    (∀ rt a out a', buildRoadTypeEntry rt a = .ok (out, a') →
      ∃ pre post, out = pre ++
        fieldColor 0x73 rt.NormalColor rt.NormalCustom ++
        (fieldColor 0x74 rt.KeyColor rt.KeyCustom ++ post)) := by
  refine ⟨fun tag c => rfl, ?_, ?_⟩
  · intro tag c custom; cases custom <;> rfl
  · intro rt a out a' h
    revert h
    unfold buildRoadTypeEntry
    cases h1 : fieldString 0x33 rt.Name with
    | error e => intro h; simp at h
    | ok nameField =>
    simp only []
    cases h2 : buildPartsList rt.StraightParts 0x13 true a with
    | error e => intro h; simp at h
    | ok sres =>
    obtain ⟨straight, a1⟩ := sres
    simp only []
    cases h3 : fieldList 0x78 straight with
    | error e => intro h; simp at h
    | ok straightField =>
    simp only []
    cases h4 : buildPartsList rt.CornerParts 0x14 false a1 with
    | error e => intro h; simp at h
    | ok cres =>
    obtain ⟨corners, a2⟩ := cres
    simp only []
    cases h5 : fieldList 0x79 corners with
    | error e => intro h; simp at h
    | ok cornerField =>
    simp only []
    cases h6 : fieldList 0x7A [] with
    | error e => intro h; simp at h
    | ok emptyField =>
    simp only []
    cases h7 : buildPartsList rt.TerminatorPart 0x16 false a2 with
    | error e => intro h; simp at h
    | ok tres =>
    obtain ⟨terminators, a3⟩ := tres
    simp only []
    cases h8 : fieldList 0x7B terminators with
    | error e => intro h; simp at h
    | ok terminatorField =>
    simp only []
    cases h9 : allocE (useOrDeterministic a3 rt.ID
        ("rt|".toList ++ goToLower rt.Name)) with
    | error e => intro h; simp at h
    | ok ires =>
    obtain ⟨entryID, a4⟩ := ires
    simp only []
    cases h10 : buildEntry (if rt.Typ = 0 then 0x12 else rt.Typ) entryID
        ([nameField, fieldByte 0x71 (boolByte rt.KeyCustom),
          fieldByte 0x72 (boolByte rt.NormalCustom),
          fieldColor 0x73 rt.NormalColor rt.NormalCustom,
          fieldColor 0x74 rt.KeyColor rt.KeyCustom, fieldByte 0x75 0,
          fieldBytes 0x76 zeros8, fieldBytes 0x77 zeros8] ++
         [straightField, cornerField, emptyField, terminatorField]) with
    | error e => intro h; simp at h
    | ok entry =>
      intro h
      simp only [Except.ok.injEq, Prod.mk.injEq] at h
      obtain ⟨hout, _⟩ := h
      subst hout
      unfold buildEntry at h10
      simp only [] at h10
      revert h10
      cases h11 : writeU32FromNat
          (u16Bytes (if rt.Typ = 0 then 0x12 else rt.Typ) ++ u32Bytes entryID ++
            ([nameField, fieldByte 0x71 (boolByte rt.KeyCustom),
              fieldByte 0x72 (boolByte rt.NormalCustom),
              fieldColor 0x73 rt.NormalColor rt.NormalCustom,
              fieldColor 0x74 rt.KeyColor rt.KeyCustom, fieldByte 0x75 0,
              fieldBytes 0x76 zeros8, fieldBytes 0x77 zeros8] ++
             [straightField, cornerField, emptyField,
              terminatorField]).flatten).length with
      | error e => intro h10; simp at h10
      | ok lenB =>
        intro h10
        simp only [Except.ok.injEq] at h10
        subst h10
        refine ⟨[0x06, 0, 0x0D] ++ lenB ++
          u16Bytes (if rt.Typ = 0 then 0x12 else rt.Typ) ++
          u32Bytes entryID ++ nameField ++
          fieldByte 0x71 (boolByte rt.KeyCustom) ++
          fieldByte 0x72 (boolByte rt.NormalCustom),
          fieldByte 0x75 0 ++ fieldBytes 0x76 zeros8 ++
          fieldBytes 0x77 zeros8 ++ straightField ++ cornerField ++
          emptyField ++ terminatorField, ?_⟩
        simp [List.flatten_cons, List.append_assoc]

/-- Witness for C10's entry-containment conjunct at a concrete road
type. -/
def rtC10 : RoadType :=
  { Name := "aa".toList, ID := 7,
    NormalColor := { R := 10, G := 20, B := 30, A := 40 },
    KeyColor := { R := 1, G := 2, B := 3, A := 4 },
    NormalCustom := false, KeyCustom := true }

/-- The serialized bytes of `rtC10` (first component). -/
def rtC10Out : List Nat :=
  match buildRoadTypeEntry rtC10 { used := [], next := 8 } with
  | .ok (o, _) => o
  | .error _ => []

/-- The allocator state after serializing `rtC10`. -/
def rtC10Alloc : idAllocator :=
  match buildRoadTypeEntry rtC10 { used := [], next := 8 } with
  | .ok (_, a) => a
  | .error _ => {}

/-- Witness for C10 at `rtC10`. -/
theorem C10_fieldColor_encoding_witness :
    ∃ pre post, rtC10Out = pre ++
      fieldColor 0x73 rtC10.NormalColor rtC10.NormalCustom ++
      (fieldColor 0x74 rtC10.KeyColor rtC10.KeyCustom ++ post) :=
  C10_fieldColor_encoding.2.2 rtC10 { used := [], next := 8 } rtC10Out
    rtC10Alloc (by rfl)

/-! ## C7: unique dependent-offset signature -/

/-- C7 counterexample data: the signature `18 00 0D` occurs twice, the
second occurrence truncated at the end of the buffer. -/
def exC7 : List Nat := [0x18, 0, 0x0D, 0, 0, 0, 0, 0x18, 0, 0x0D]

/-- C7 counterexample: the claim demands failure whenever the signature
occurs more than once in the buffer; here it occurs twice (at 0 and 7),
yet the repair succeeds, adjusting the first occurrence. -/
theorem C7_counterexample :
    ((List.range (exC7.length + 1 - 3)).filter
      (patMatchAt exC7 [0x18, 0, 0x0D])).length = 2 ∧
    adjustOffsetsByTag exC7 0x18 0x0D 4 =
      .ok [0x18, 0, 0x0D, 4, 0, 0, 0, 0x18, 0, 0x0D] :=
  ⟨by decide, by rfl⟩

/-- C7 amended: repairing a dependent offset field requires its 3-byte
signature to occur exactly once *with room for the 4-byte value*
(`pos + 7 ≤ len`); when that roomy-occurrence count is zero or more
than one (and the delta is non-zero, so an adjustment is required), the
repair fails with an error rather than guessing. -/
theorem C7_unique_roomy_signature_required
    (data : List Nat) (tag typ : Nat) (delta : Int)
    (hd : delta ≠ 0) (hc : countRoomy data [tag, 0, typ] ≠ 1) :
    (adjustOffsetsByTag data tag typ delta).isOk = false := by
  unfold adjustOffsetsByTag
  rw [if_neg hd]
  split
  · rfl
  · rw [if_pos hc]
    rfl

/-- Witness for C7 at zero occurrences (signature truncated). -/
theorem C7_unique_roomy_signature_required_witness :
    (1 : Int) ≠ 0 ∧ countRoomy [0x18, 0, 0x0D] [0x18, 0, 0x0D] ≠ 1 ∧
    (adjustOffsetsByTag [0x18, 0, 0x0D] 0x18 0x0D 1).isOk = false :=
  ⟨by decide, by decide,
    C7_unique_roomy_signature_required _ _ _ _ (by decide) (by decide)⟩

/-! ## C2: decoder consumption discipline -/

/-- The field loop's final position: bounded by the body length, with
fewer than 3 bytes left unconsumed (that is where the loop exits). -/
theorem parseFieldsF_pos_bound :
    ∀ fuel body absStart pos acc fs pos', pos ≤ body.length →
      parseFieldsF fuel body absStart pos acc = some (fs, pos') →
      pos' ≤ body.length ∧ body.length < pos' + 3 := by
  intro fuel
  induction fuel with
  | zero =>
    intro body abs pos acc fs pos' hp h
    simp [parseFieldsF] at h
  | succ f ih =>
    intro body abs pos acc fs pos' hp h
    rw [parseFieldsF] at h
    by_cases h3 : pos + 3 ≤ body.length
    · rw [if_pos h3] at h
      simp only [] at h
      by_cases hz : byteAt body (pos + 1) ≠ 0
      · rw [if_pos hz] at h; exact absurd h (by simp)
      rw [if_neg hz] at h
      by_cases hb : byteAt body (pos + 2) = 0x0B
      · rw [if_pos hb] at h
        by_cases hov : pos + 3 + 2 > body.length
        · rw [if_pos hov] at h; exact absurd h (by simp)
        rw [if_neg hov] at h
        by_cases hov2 : pos + 3 + 2 + readU16 (body.drop (pos + 3)) >
            body.length
        · rw [if_pos hov2] at h; exact absurd h (by simp)
        rw [if_neg hov2] at h
        exact ih _ _ _ _ _ _ (by omega) h
      rw [if_neg hb] at h
      by_cases h9 : byteAt body (pos + 2) = 0x09
      · rw [if_pos h9] at h
        by_cases hov : pos + 3 + 1 > body.length
        · rw [if_pos hov] at h; exact absurd h (by simp)
        rw [if_neg hov] at h
        exact ih _ _ _ _ _ _ (by omega) h
      rw [if_neg h9] at h
      by_cases h8 : byteAt body (pos + 2) = 0x08
      · rw [if_pos h8] at h
        by_cases hov : pos + 3 + 4 > body.length
        · rw [if_pos hov] at h; exact absurd h (by simp)
        rw [if_neg hov] at h
        exact ih _ _ _ _ _ _ (by omega) h
      rw [if_neg h8] at h
      by_cases h14 : byteAt body (pos + 2) = 0x14
      · rw [if_pos h14] at h
        by_cases hov : pos + 3 + 8 > body.length
        · rw [if_pos hov] at h; exact absurd h (by simp)
        rw [if_neg hov] at h
        exact ih _ _ _ _ _ _ (by omega) h
      rw [if_neg h14] at h
      by_cases hc : byteAt body (pos + 2) = 0x0C
      · rw [if_pos hc] at h
        by_cases hov : pos + 3 + 8 > body.length
        · rw [if_pos hov] at h; exact absurd h (by simp)
        rw [if_neg hov] at h
        by_cases hl4 : readU32 (body.drop (pos + 3)) < 4
        · rw [if_pos hl4] at h; exact absurd h (by simp)
        rw [if_neg hl4] at h
        by_cases hov2 : pos + 3 + 8 + (readU32 (body.drop (pos + 3)) - 4) >
            body.length
        · rw [if_pos hov2] at h; exact absurd h (by simp)
        rw [if_neg hov2] at h
        revert h
        cases hq : parseEntriesF f body (pos + 3 + 8)
            (readU32 (body.drop (pos + 3)) - 4)
            (readU32 (body.drop (pos + 3 + 4))) abs with
        | none => intro h; exact absurd h (by simp)
        | some es =>
          intro h
          exact ih _ _ _ _ _ _ (by omega) h
      rw [if_neg hc] at h
      exact absurd h (by simp)
    · rw [if_neg h3] at h
      simp only [Option.some.injEq, Prod.mk.injEq] at h
      obtain ⟨_, hpp⟩ := h
      subst hpp
      omega

/-- C2 amended: the entry decoder checks every field payload against
the declared body length and fails on any overrun, unknown type code or
non-zero reserved byte; on success it consumes fields until fewer than
3 bytes of the declared body remain, so at most 2 trailing bytes are
silently discarded (rather than any remainder being a failure). -/
theorem C2_decoder_consumption :
    (∀ fuel body absStart ent, parseEntryF fuel body absStart = some ent →
      6 ≤ body.length ∧ ∃ f fs pos, fuel = f + 1 ∧
        parseFieldsF f body absStart 6 [] = some (fs, pos) ∧
        ent.fields = fs ∧ pos ≤ body.length ∧ body.length < pos + 3) ∧
    (∀ fuel body absStart pos acc, byteAt body (pos + 1) = 0 →
      pos + 3 ≤ body.length →
      ((byteAt body (pos + 2) = 0x09 ∧ body.length < pos + 4) ∨
       (byteAt body (pos + 2) = 0x08 ∧ body.length < pos + 7) ∨
       (byteAt body (pos + 2) = 0x14 ∧ body.length < pos + 11) ∨
       (byteAt body (pos + 2) = 0x0B ∧ body.length < pos + 5) ∨
       (byteAt body (pos + 2) = 0x0B ∧ pos + 5 ≤ body.length ∧
         body.length < pos + 5 + readU16 (body.drop (pos + 3)))) →
      parseFieldsF fuel body absStart pos acc = none) ∧
    (∀ fuel body absStart pos acc, pos + 3 ≤ body.length →
      byteAt body (pos + 2) ≠ 0x0B → byteAt body (pos + 2) ≠ 0x09 →
      byteAt body (pos + 2) ≠ 0x08 → byteAt body (pos + 2) ≠ 0x14 →
      byteAt body (pos + 2) ≠ 0x0C →
      parseFieldsF fuel body absStart pos acc = none) := by
  refine ⟨?_, ?_, ?_⟩
  · intro fuel body absStart ent h
    cases fuel with
    | zero => simp [parseEntryF] at h
    | succ f =>
      rw [parseEntryF] at h
      by_cases h6 : body.length < 6
      · rw [if_pos h6] at h; exact absurd h (by simp)
      rw [if_neg h6] at h
      revert h
      cases hq : parseFieldsF f body absStart 6 [] with
      | none => intro h; exact absurd h (by simp)
      | some r =>
        obtain ⟨fs, pos⟩ := r
        intro h
        simp only [Option.some.injEq] at h
        subst h
        have := parseFieldsF_pos_bound f body absStart 6 [] fs pos
          (by omega) hq
        exact ⟨by omega, f, fs, pos, rfl, hq, rfl, this.1, this.2⟩
  · intro fuel body absStart pos acc hz h3 hcase
    cases fuel with
    | zero => rfl
    | succ f =>
      rw [parseFieldsF]
      rw [if_pos h3]
      simp only []
      rw [if_neg (by simp [hz])]
      rcases hcase with ⟨ht, hov⟩ | ⟨ht, hov⟩ | ⟨ht, hov⟩ | ⟨ht, hov⟩ |
        ⟨ht, hle, hov⟩
      · rw [if_neg (by rw [ht]; decide), if_pos ht, if_pos (by omega)]
      · rw [if_neg (by rw [ht]; decide), if_neg (by rw [ht]; decide),
          if_pos ht, if_pos (by omega)]
      · rw [if_neg (by rw [ht]; decide), if_neg (by rw [ht]; decide),
          if_neg (by rw [ht]; decide), if_pos ht, if_pos (by omega)]
      · rw [if_pos ht, if_pos (by omega)]
      · rw [if_pos ht, if_neg (by omega), if_pos (by omega)]
  · intro fuel body absStart pos acc h3 hb h9 h8 h14 hc
    cases fuel with
    | zero => rfl
    | succ f =>
      rw [parseFieldsF]
      rw [if_pos h3]
      simp only []
      by_cases hz : byteAt body (pos + 1) ≠ 0
      · rw [if_pos hz]
      · rw [if_neg hz, if_neg hb, if_neg h9, if_neg h8, if_neg h14,
          if_neg hc]

/-- C2 counterexample: a declared body of 7 bytes (6-byte header plus
one trailing byte) decodes successfully with the trailing byte never
consumed, instead of failing on the remainder. -/
theorem C2_counterexample :
    (parseEntry [0x12, 0, 1, 0, 0, 0, 0xFF] 0).isSome = true ∧
    parseFieldsF 22 [0x12, 0, 1, 0, 0, 0, 0xFF] 0 6 [] = some ([], 6) ∧
    ([0x12, 0, 1, 0, 0, 0, 0xFF] : List Nat).length = 7 := ⟨rfl, rfl, rfl⟩

/-- Witness for C2 at concrete inputs: a successful decode leaving at
most 2 bytes, a string-payload overrun, and an unknown type code. -/
theorem C2_decoder_consumption_witness :
    (6 ≤ ([0x12, 0, 1, 0, 0, 0, 0xFF] : List Nat).length ∧
      ∃ f fs pos, (23 : Nat) = f + 1 ∧
        parseFieldsF f [0x12, 0, 1, 0, 0, 0, 0xFF] 0 6 [] = some (fs, pos) ∧
        (Entry.mk 0x12 1 0 2 []).fields = fs ∧
        pos ≤ ([0x12, 0, 1, 0, 0, 0, 0xFF] : List Nat).length ∧
        ([0x12, 0, 1, 0, 0, 0, 0xFF] : List Nat).length < pos + 3) ∧
    parseFieldsF 9 [0x33, 0, 0x0B, 9, 0, 97] 0 0 [] = none ∧
    parseFieldsF 9 [0x33, 0, 0x77, 9, 0, 97] 0 0 [] = none := by
  refine ⟨?_, ?_, ?_⟩
  · exact (C2_decoder_consumption.1 23 [0x12, 0, 1, 0, 0, 0, 0xFF] 0
      (Entry.mk 0x12 1 0 2 []) (by rfl)).2.elim
      (fun f hf => ⟨(C2_decoder_consumption.1 23 _ 0 _ (by rfl)).1, f, hf⟩)
  · exact C2_decoder_consumption.2.1 9 [0x33, 0, 0x0B, 9, 0, 97] 0 0 []
      (by decide) (by decide) (by decide)
  · exact C2_decoder_consumption.2.2 9 [0x33, 0, 0x77, 9, 0, 97] 0 0 []
      (by decide) (by decide) (by decide) (by decide) (by decide) (by decide)

/-! ## C8: crossroad validation -/

/-- The trimmed default of a crossroad is non-empty. -/
def hasDefault (cr : CrossroadType) : Prop :=
  goTrimSpace cr.Default ≠ ([] : GoStr)

instance (cr : CrossroadType) : Decidable (hasDefault cr) := by
  unfold hasDefault; infer_instance

/-- The normalized default key of a crossroad. -/
def defaultKey (cr : CrossroadType) : GoStr :=
  goToLower (goTrimSpace cr.Default)

/-- The validation loop succeeds exactly when every crossroad passes
the per-entry checks, no default key collides with the seen map, and
the non-empty default keys are pairwise distinct. -/
theorem validateCrossroadsLoop_ok_iff (nameSet : List GoStr) :
    ∀ (crs : List CrossroadType) (seen : List (GoStr × GoStr)),
      validateCrossroadsLoop nameSet seen crs = .ok () ↔
        ((∀ cr ∈ crs, connectionsOK nameSet cr = true ∧
            (hasDefault cr → nameSet.contains (defaultKey cr) = true ∧
              crossroadHasRoadType cr cr.Default = true)) ∧
         (∀ cr ∈ crs, hasDefault cr → ∀ p ∈ seen, p.1 ≠ defaultKey cr) ∧
         List.Pairwise (fun c1 c2 => hasDefault c1 → hasDefault c2 →
            defaultKey c1 ≠ defaultKey c2) crs) := by
  intro crs
  induction crs with
  | nil => intro seen; simp [validateCrossroadsLoop]
  | cons cr rest ih =>
    intro seen
    rw [validateCrossroadsLoop]
    by_cases hconn : connectionsOK nameSet cr = true
    · rw [if_neg (by simp [hconn])]
      by_cases hd : hasDefault cr
      · rw [if_pos (show goTrimSpace cr.Default ≠ ([] : GoStr) from hd)]
        by_cases hin : nameSet.contains (defaultKey cr) = true
        · rw [if_neg (by simp [defaultKey] at hin ⊢; exact hin)]
          by_cases hrt : crossroadHasRoadType cr cr.Default = true
          · rw [if_neg (by simp [hrt])]
            by_cases hdup : (seen.find? (fun p =>
                p.1 = goToLower (goTrimSpace cr.Default))).isSome
            · rw [if_pos hdup]
              constructor
              · intro h; exact absurd h (by simp)
              · intro ⟨_, hseen, _⟩
                rw [List.find?_isSome] at hdup
                obtain ⟨p, hp, hpk⟩ := hdup
                exact absurd (by simpa [defaultKey] using hpk)
                  (hseen cr (by simp) hd p hp)
            · rw [if_neg hdup]
              rw [ih (seen ++ [(goToLower (goTrimSpace cr.Default), cr.Name)])]
              rw [List.find?_isSome] at hdup
              push_neg at hdup
              constructor
              · intro ⟨h1, h2, h3⟩
                refine ⟨?_, ?_, ?_⟩
                · intro c hc
                  rcases hc with _ | hc
                  · exact ⟨hconn, fun _ => ⟨hin, hrt⟩⟩
                  · exact h1 c (by assumption)
                · intro c hc hcd p hp
                  rcases hc with _ | hc
                  · intro heq
                    exact hdup p hp (decide_eq_true
                      (by simpa [defaultKey] using heq))
                  · exact h2 c (by assumption) hcd p (by simp [hp])
                · constructor
                  · intro c hc hcd1 hcd2
                    have := h2 c hc hcd2 (goToLower (goTrimSpace cr.Default),
                      cr.Name) (by simp)
                    exact fun he => this (by simpa [defaultKey] using he)
                  · exact h3
              · intro ⟨h1, h2, h3⟩
                refine ⟨?_, ?_, (List.pairwise_cons.mp h3).2⟩
                · intro c hc; exact h1 c (by simp [hc])
                · intro c hc hcd p hp
                  rcases List.mem_append.mp hp with hp | hp
                  · exact h2 c (by simp [hc]) hcd p hp
                  · simp only [List.mem_singleton] at hp
                    subst hp
                    have := (List.pairwise_cons.mp h3).1 c hc hd hcd
                    simpa [defaultKey] using this
          · rw [if_pos (by simp [hrt])]
            constructor
            · intro h; exact absurd h (by simp)
            · intro ⟨h1, _, _⟩
              exact absurd ((h1 cr (by simp)).2 hd).2 hrt
        · rw [if_pos (by simp [defaultKey] at hin ⊢; exact hin)]
          constructor
          · intro h; exact absurd h (by simp)
          · intro ⟨h1, _, _⟩
            exact absurd ((h1 cr (by simp)).2 hd).1 hin
      · rw [if_neg (show ¬goTrimSpace cr.Default ≠ ([] : GoStr) from hd)]
        rw [ih seen]
        constructor
        · intro ⟨h1, h2, h3⟩
          refine ⟨?_, ?_, ?_⟩
          · intro c hc
            rcases hc with _ | hc
            · exact ⟨hconn, fun hcd => absurd hcd hd⟩
            · exact h1 c (by assumption)
          · intro c hc hcd p hp
            rcases hc with _ | hc
            · exact absurd hcd hd
            · exact h2 c (by assumption) hcd p hp
          · constructor
            · intro c _ hcd1 _
              exact absurd hcd1 hd
            · exact h3
        · intro ⟨h1, h2, h3⟩
          exact ⟨fun c hc => h1 c (by simp [hc]),
            fun c hc => h2 c (by simp [hc]), (List.pairwise_cons.mp h3).2⟩
    · rw [if_pos (by simp [hconn])]
      constructor
      · intro h; exact absurd h (by simp)
      · intro ⟨h1, _, _⟩
        exact absurd (h1 cr (by simp)).1 hconn

/-- At most one element of a pairwise-distinct-key list passes a filter
pinning the key. -/
theorem pairwise_key_filter_le_one (l : List CrossroadType) (N : GoStr)
    (hp : List.Pairwise (fun c1 c2 => hasDefault c1 → hasDefault c2 →
      defaultKey c1 ≠ defaultKey c2) l) :
    (l.filter (fun cr => decide (hasDefault cr) &&
      decide (defaultKey cr = N))).length ≤ 1 := by
  induction l with
  | nil => simp
  | cons a l ih =>
    rw [List.pairwise_cons] at hp
    rw [List.filter_cons]
    by_cases ha : (decide (hasDefault a) && decide (defaultKey a = N)) = true
    · rw [if_pos ha]
      simp only [Bool.and_eq_true, decide_eq_true_eq] at ha
      have hempty : l.filter (fun cr => decide (hasDefault cr) &&
          decide (defaultKey cr = N)) = [] := by
        by_contra hne
        obtain ⟨x, hx⟩ := List.exists_mem_of_ne_nil _ hne
        have hx' := List.mem_filter.mp hx
        simp only [Bool.and_eq_true, decide_eq_true_eq] at hx'
        exact hp.1 x hx'.1 ha.1 hx'.2.1 (ha.2.trans hx'.2.2.symm)
      simp [hempty]
    · rw [if_neg ha]
      exact ih hp.2

/-- C8: `ValidateCrossroads` reports ok exactly when every non-empty
(trimmed) connection name resolves case-insensitively to a known
road-type name, every non-empty default names a known road type that
appears among that crossroad's connection values, and the non-empty
defaults are pairwise distinct (case-insensitively); consequently, on
success at most one crossroad carries any given default.  It is invoked
by the patcher's planning phase, before any byte replacement is
applied. -/
theorem C8_validate_crossroads (crossroads : List CrossroadType)
    (roadTypes : List RoadType) :
    (ValidateCrossroads crossroads roadTypes = .ok () ↔
      ((∀ cr ∈ crossroads,
          connectionsOK ((roadTypes.filter (fun rt =>
            goTrimSpace rt.Name ≠ ([] : GoStr))).map (fun rt =>
              goToLower rt.Name)) cr = true ∧
          (hasDefault cr →
            ((roadTypes.filter (fun rt =>
              goTrimSpace rt.Name ≠ ([] : GoStr))).map (fun rt =>
                goToLower rt.Name)).contains (defaultKey cr) = true ∧
            crossroadHasRoadType cr cr.Default = true)) ∧
       List.Pairwise (fun c1 c2 => hasDefault c1 → hasDefault c2 →
          defaultKey c1 ≠ defaultKey c2) crossroads)) ∧
    (ValidateCrossroads crossroads roadTypes = .ok () →
      ∀ N : GoStr, (crossroads.filter (fun cr => decide (hasDefault cr) &&
        decide (defaultKey cr = N))).length ≤ 1) := by
  constructor
  · rw [ValidateCrossroads, validateCrossroadsLoop_ok_iff]
    constructor
    · intro ⟨h1, _, h3⟩; exact ⟨h1, h3⟩
    · intro ⟨h1, h3⟩; exact ⟨h1, by simp, h3⟩
  · intro hok N
    rw [ValidateCrossroads, validateCrossroadsLoop_ok_iff] at hok
    exact pairwise_key_filter_le_one crossroads N hok.2.2

/-- Crossroad for the C8 witness. -/
def crC8 : CrossroadType :=
  { Name := "kr_t_aa_bb".toList,
    Connections := { A := "aa".toList, B := "aa".toList,
                     C := "bb".toList, D := [] },
    Default := "aa".toList }

/-- Road types for the C8 witness. -/
def rtsC8 : List RoadType := [{ Name := "aa".toList }, { Name := "bb".toList }]

/-- Witness for C8 at a concrete configuration. -/
theorem C8_validate_crossroads_witness :
    ValidateCrossroads [crC8] rtsC8 = .ok () ∧
    (([crC8] : List CrossroadType).filter
      (fun cr => decide (hasDefault cr) &&
        decide (defaultKey cr = "aa".toList))).length ≤ 1 :=
  ⟨rfl, (C8_validate_crossroads [crC8] rtsC8).2 rfl "aa".toList⟩

/-! ## C3: identifier uniqueness after patching -/

/-- A fresh allocation is non-zero, collides with nothing already
registered, and registers its result; the used set only grows by the
returned id. -/
theorem allocNextF_spec :
    ∀ fuel a out a', allocNextF fuel a = some (out, a') →
      out ≠ 0 ∧ out ∉ a.used ∧ a'.used = insertUsed a.used out := by
  intro fuel
  induction fuel with
  | zero => intro a out a' h; simp [allocNextF] at h
  | succ f ih =>
    intro a out a' h
    rw [allocNextF] at h
    by_cases hz : a.next = 0
    · rw [if_pos hz] at h
      have hrec := ih _ out a' h
      exact hrec
    rw [if_neg hz] at h
    by_cases hu : a.used.contains a.next
    · rw [if_pos hu] at h
      have hrec := ih _ out a' h
      exact hrec
    rw [if_neg hu] at h
    simp only [Option.some.injEq, Prod.mk.injEq] at h
    obtain ⟨hout, ha'⟩ := h
    subst hout
    refine ⟨hz, ?_, by rw [← ha']⟩
    intro hmem
    exact hu (List.elem_iff.mpr hmem)

/-- C3 amended, allocator contract: an explicit non-zero caller id is
registered and returned unchanged with no uniqueness check, while a
fresh request returns a non-zero id absent from the used set and
registers it. -/
theorem C3_id_allocation (a : idAllocator) :
    (∀ id seed out a', id ≠ 0 →
      useOrDeterministic a id seed = some (out, a') →
      out = id ∧ a'.used = insertUsed a.used id) ∧
    (∀ seed out a', useOrDeterministic a 0 seed = some (out, a') →
      out ≠ 0 ∧ out ∉ a.used ∧ out ∈ a'.used) := by
  constructor
  · intro id seed out a' hid h
    rw [useOrDeterministic, if_pos hid] at h
    simp only [Option.some.injEq, Prod.mk.injEq] at h
    exact ⟨h.1.symm, by rw [← h.2]⟩
  · intro seed out a' h
    rw [useOrDeterministic, if_neg (by simp)] at h
    have := allocNextF_spec u32Mod a out a' h
    refine ⟨this.1, this.2.1, ?_⟩
    rw [this.2.2, insertUsed]
    split
    · exact List.elem_iff.mp (by assumption)
    · simp

/-- Road type `aa` with explicit id 5. -/
def rtAA : RoadType := { Name := "aa".toList, ID := 5 }

/-- Road type `bb` with the same explicit id 5. -/
def rtBB : RoadType := { Name := "bb".toList, ID := 5 }

/-- Config carrying two road types with duplicate explicit ids. -/
def cfgDup : RoadConfig := { Types := [rtAA, rtBB] }

/-- A host file consisting of the serialized road-types list of
`cfgDup` (a valid tv4p road-tool region). -/
def dataDup : List Nat :=
  match buildRoadTypesEntries cfgDup [] with
  | .ok entries => (fieldList 0x88 entries).toOption.getD []
  | .error _ => []

/-- C3 counterexample: the patch of `cfgDup` into `dataDup` succeeds,
and the produced file holds two road-type entries (same kind 0x12) with
the same non-zero identifier 5 — caller-supplied identifiers are not
checked for uniqueness. -/
theorem C3_counterexample :
    PatchRoadTool dataDup cfgDup .roads = .ok dataDup ∧
    (ParseRoadTypes dataDup).toOption.map (fun b => b.Types.map (·.ID)) =
      some [5, 5] ∧
    (ParseRoadTypes dataDup).toOption.map (fun b => b.Types.map (·.Typ)) =
      some [0x12, 0x12] ∧
    (5 : Nat) ≠ 0 := ⟨rfl, rfl, rfl, by decide⟩

/-- Witness for C3's allocator contract at a concrete state. -/
theorem C3_id_allocation_witness :
    ((5 : Nat) = 5 ∧
      ({ used := [5], next := 6 } : idAllocator).used =
        insertUsed [5] 5) ∧
    ((6 : Nat) ≠ 0 ∧ (6 : Nat) ∉ [5] ∧
      (6 : Nat) ∈ ({ used := [5, 6], next := 7 } : idAllocator).used) :=
  ⟨(C3_id_allocation { used := [5], next := 6 }).1 5 [] 5
      { used := [5], next := 6 } (by decide) rfl,
    (C3_id_allocation { used := [5], next := 6 }).2 [] 6
      { used := [5, 6], next := 7 } rfl⟩

/-! ## C6: the sequential road-type id series -/

/-- Membership in `insertUsed`. -/
theorem mem_insertUsed (l : List Nat) (x y : Nat) :
    x ∈ insertUsed l y ↔ x ∈ l ∨ x = y := by
  rw [insertUsed]
  split
  · next hc =>
    constructor
    · exact fun h => Or.inl h
    · intro h
      rcases h with h | h
      · exact h
      · subst h; exact List.elem_iff.mp hc
  · simp

/-- `seqLoop1` is the identity when the candidate already matches. -/
theorem seqLoop1_fixed (fuel rem next : Nat) (hf : fuel ≠ 0)
    (h0 : next ≠ 0) (hr : next % stride88 = rem) :
    seqLoop1 fuel rem next = some next := by
  cases fuel with
  | zero => exact absurd rfl hf
  | succ f =>
    rw [seqLoop1, if_neg]
    push_neg
    exact ⟨h0, hr⟩

/-- Behavior of the collision-skipping loop on success, under bounds
that rule out u32 wraparound. -/
theorem seqLoop2_spec :
    ∀ fuel (ids : List Nat) next M L id next2,
      (∀ x ∈ ids, x < M) → M + 2 * stride88 < u32Mod →
      next ≠ 0 → next < M + stride88 → L < next →
      seqLoop2 fuel ids next = some (id, next2) →
      id ∉ ids ∧ id ≠ 0 ∧ L < id ∧ next ≤ id ∧
        (id - next) % stride88 = 0 ∧ id < M + stride88 ∧
        next2 = id + stride88 := by
  intro fuel
  induction fuel with
  | zero => intro ids next M L id next2 _ _ _ _ _ h; simp [seqLoop2] at h
  | succ f ih =>
    intro ids next M L id next2 hb hM hnz hle hL h
    rw [seqLoop2] at h
    by_cases hc : ids.contains next ∨ next = 0
    · rw [if_pos hc] at h
      have hmem : next ∈ ids := by
        rcases hc with hc | hc
        · exact List.elem_iff.mp hc
        · exact absurd hc hnz
      have hlt : next < M := hb next hmem
      have hnw : (next + stride88) % u32Mod = next + stride88 :=
        Nat.mod_eq_of_lt (by unfold stride88 u32Mod at *; omega)
      rw [hnw] at h
      have H := ih ids (next + stride88) M L id next2 hb hM
        (by unfold stride88 at *; omega)
        (by unfold stride88 at *; omega)
        (by omega) h
      obtain ⟨Hnotin, Hnz, HL, Hge, Hmod, Hlt, Hnext2⟩ := H
      exact ⟨Hnotin, Hnz, HL, by omega,
        by unfold stride88 at *; omega, Hlt, Hnext2⟩
    · rw [if_neg hc] at h
      push_neg at hc
      simp only [Option.some.injEq, Prod.mk.injEq] at h
      obtain ⟨h1, h2⟩ := h
      have hnw : (next + stride88) % u32Mod = next + stride88 :=
        Nat.mod_eq_of_lt (by unfold stride88 u32Mod at *; omega)
      rw [hnw] at h2
      rw [← h1, ← h2]
      exact ⟨fun hm => absurd (List.elem_iff.mpr hm) (by simpa using hc.1),
        hnz, hL, le_refl _, by simp, hle, rfl⟩

/-- Behavior of the per-type assignment loop on success: zero-id types
receive ids on the arithmetic progression, past every collision, above
the lower bound, strictly increasing along the list. -/
theorem applySeqLoop_spec :
    ∀ (rem : Nat) (types : List RoadType) (ids : List Nat) (next M L : Nat)
      (types' : List RoadType) (ids' : List Nat),
      (∀ x ∈ ids, x < M) →
      M + (types.length + 1) * stride88 + stride88 < u32Mod →
      next ≠ 0 → next % stride88 = rem → next < M + stride88 → L < next →
      applySeqLoop rem types ids next = some (types', ids') →
      types'.length = types.length ∧
      (∀ i, (types.getD i {}).ID ≠ 0 → types'.getD i {} = types.getD i {}) ∧
      (∀ i, i < types.length → (types.getD i {}).ID = 0 →
        (types'.getD i {}).ID % stride88 = rem ∧ L < (types'.getD i {}).ID ∧
        (types'.getD i {}).ID ∉ ids ∧ (types'.getD i {}).ID ∈ ids') ∧
      (∀ i j, i < j → j < types.length → (types.getD i {}).ID = 0 →
        (types.getD j {}).ID = 0 →
        (types'.getD i {}).ID < (types'.getD j {}).ID ∧
        ((types'.getD j {}).ID - (types'.getD i {}).ID) % stride88 = 0) ∧
      (∀ x ∈ ids, x ∈ ids') := by
  intro rem types
  induction types with
  | nil =>
    intro ids next M L types' ids' _ _ _ _ _ _ h
    rw [applySeqLoop] at h
    simp only [Option.some.injEq, Prod.mk.injEq] at h
    obtain ⟨h1, h2⟩ := h
    subst h1; subst h2
    refine ⟨rfl, fun i _ => rfl, by simp, by simp, fun x hx => hx⟩
  | cons rt rest ih =>
    intro ids next M L types' ids' hb hM hnz hr hle hL h
    rw [applySeqLoop] at h
    by_cases hid : rt.ID ≠ 0
    · rw [if_pos hid] at h
      revert h
      cases hrec : applySeqLoop rem rest ids next with
      | none => intro h; exact absurd h (by simp)
      | some r =>
        obtain ⟨ts, rids⟩ := r
        intro h
        simp only [Option.some.injEq, Prod.mk.injEq] at h
        obtain ⟨h1, h2⟩ := h
        subst h1; subst h2
        have H := ih ids next M L ts rids hb
          (by have hlen : (rt :: rest).length = rest.length + 1 := rfl
              unfold stride88 u32Mod at *; omega)
          hnz hr hle hL hrec
        refine ⟨by simp [H.1], ?_, ?_, ?_, H.2.2.2.2⟩
        · intro i hi
          cases i with
          | zero => simp
          | succ i => simpa using H.2.1 i (by simpa using hi)
        · intro i hi hz
          cases i with
          | zero => simp at hz; exact absurd hz hid
          | succ i =>
            simp only [List.getD_cons_succ] at hz ⊢
            exact H.2.2.1 i (by simpa using hi) hz
        · intro i j hij hj hz1 hz2
          cases i with
          | zero => simp at hz1; exact absurd hz1 hid
          | succ i =>
          cases j with
          | zero => omega
          | succ j =>
            simp only [List.getD_cons_succ] at hz1 hz2 ⊢
            exact H.2.2.2.1 i j (by omega) (by simpa using hj) hz1 hz2
    · rw [if_neg hid] at h
      push_neg at hid
      rw [seqLoop1_fixed u32Mod rem next (by unfold u32Mod; omega) hnz hr]
        at h
      simp only [] at h
      revert h
      cases hq : seqLoop2 u32Mod ids next with
      | none => intro h; exact absurd h (by simp)
      | some p =>
        obtain ⟨id, next2⟩ := p
        intro h
        simp only [] at h
        have hspec := seqLoop2_spec u32Mod ids next M L id next2 hb
          (by have hlen : (rt :: rest).length = rest.length + 1 := rfl
              unfold stride88 u32Mod at *; omega)
          hnz hle hL hq
        obtain ⟨hnotin, hidnz, hLid, hge, hcong, hidlt, hnext2⟩ := hspec
        subst hnext2
        revert h
        cases hrec : applySeqLoop rem rest (insertUsed ids id)
            (id + stride88) with
        | none => intro h; exact absurd h (by simp)
        | some r =>
          obtain ⟨ts, rids⟩ := r
          intro h
          simp only [Option.some.injEq, Prod.mk.injEq] at h
          obtain ⟨h1, h2⟩ := h
          subst h1; subst h2
          have hid_rem : id % stride88 = rem := by
            unfold stride88 at *; omega
          have H := ih (insertUsed ids id) (id + stride88) (M + stride88)
            id ts rids
            (by intro x hx
                rcases (mem_insertUsed ids x id).mp hx with hx | hx
                · have := hb x hx; unfold stride88 at *; omega
                · unfold stride88 at *; omega)
            (by have hlen : (rt :: rest).length = rest.length + 1 := rfl
                unfold stride88 u32Mod at *; omega)
            (by omega)
            (by unfold stride88 at *; omega)
            (by unfold stride88 at *; omega)
            (by unfold stride88 at *; omega) hrec
          refine ⟨by simp [H.1], ?_, ?_, ?_, ?_⟩
          · intro i hi
            cases i with
            | zero => simp at hi; exact absurd hid hi
            | succ i => simpa using H.2.1 i (by simpa using hi)
          · intro i hi hz
            cases i with
            | zero =>
              simp only [List.getD_cons_zero]
              refine ⟨hid_rem, hLid, hnotin, ?_⟩
              exact H.2.2.2.2 id ((mem_insertUsed ids id id).mpr (Or.inr rfl))
            | succ i =>
              simp only [List.getD_cons_succ] at hz ⊢
              have := H.2.2.1 i (by simpa using hi) hz
              refine ⟨this.1, by omega, ?_, this.2.2.2⟩
              intro hmem
              exact this.2.2.1 ((mem_insertUsed ids _ id).mpr (Or.inl hmem))
          · intro i j hij hj hz1 hz2
            cases i with
            | zero =>
              cases j with
              | zero => omega
              | succ j =>
                simp only [List.getD_cons_zero, List.getD_cons_succ]
                  at hz1 hz2 ⊢
                have hj' := H.2.2.1 j (by simpa using hj) hz2
                have hjr := hj'.1
                have hjgt := hj'.2.1
                constructor
                · omega
                · unfold stride88 at *; omega
            | succ i =>
              cases j with
              | zero => omega
              | succ j =>
                simp only [List.getD_cons_succ] at hz1 hz2 ⊢
                exact H.2.2.2.1 i j (by omega) (by simpa using hj) hz1 hz2
          · intro x hx
            exact H.2.2.2.2 x ((mem_insertUsed ids x id).mpr (Or.inl hx))

/-- One step of the id sample. -/
theorem sampleIDs_cons (s : Nat × Bool × Nat) (rt : RoadType)
    (rest : List RoadType) :
    sampleIDs s (rt :: rest) =
      sampleIDs
        (if rt.ID = 0 then s
         else (if s.2.1 then s.1 else rt.ID % stride88, true,
           max s.2.2 rt.ID)) rest := rfl

/-- The id sample keeps its remainder below the stride and its maximum
below any bound on the sampled ids. -/
theorem sampleIDs_inv (M : Nat) :
    ∀ (l : List RoadType) (s : Nat × Bool × Nat),
      (s.2.1 = true → s.1 < stride88) → s.2.2 < M →
      (∀ rt ∈ l, rt.ID < M) →
      ((sampleIDs s l).2.1 = true → (sampleIDs s l).1 < stride88) ∧
        (sampleIDs s l).2.2 < M := by
  intro l
  induction l with
  | nil => intro s h1 h2 _; exact ⟨h1, h2⟩
  | cons rt rest ih =>
    intro s h1 h2 hb
    rw [sampleIDs_cons]
    by_cases hz : rt.ID = 0
    · rw [if_pos hz]
      exact ih s h1 h2 (fun r hr => hb r (List.mem_cons_of_mem rt hr))
    · rw [if_neg hz]
      refine ih _ ?_ ?_ (fun r hr => hb r (List.mem_cons_of_mem rt hr))
      · intro _
        by_cases hh : s.2.1 = true
        · simpa [hh] using h1 hh
        · have : s.2.1 = false := by
            cases hq : s.2.1
            · rfl
            · exact absurd hq hh
          simp only [this, if_false]
          exact Nat.mod_lt _ (by unfold stride88; omega)
      · have := hb rt (List.mem_cons_self rt rest)
        simp only []
        omega

/-- C6 (amended): every fresh road-type identifier produced by
`applySequentialRoadTypeIDs` is congruent modulo 0x48 to the remainder
sampled from the file's existing road-type ids AND the config's explicit
ids (first non-zero id sampled; fixed fallback 0x0C only when neither
has one), is strictly greater than the sampled maximum id, collides with
no id already present in the file nor one allocated earlier in the same
run, and successive fresh ids increase by positive multiples of 0x48;
explicitly-numbered config entries are passed through unchanged.  The
bounds on `M` rule out 32-bit wraparound of the candidate series. -/
theorem C6_sequential_road_type_ids
    (types existingTypes : List RoadType) (existingIDs : List Nat)
    (M : Nat) (types' : List RoadType) (ids' : List Nat)
    (s : Nat × Bool × Nat) (rem : Nat)
    (hs : s = sampleIDs (sampleIDs (0, false, 0) existingTypes) types)
    (hrem : rem = if s.2.1 then s.1 else 0x0C)
    (hbE : ∀ x ∈ existingIDs, x < M)
    (hbT : ∀ rt ∈ types, rt.ID < M)
    (hbX : ∀ rt ∈ existingTypes, rt.ID < M)
    (hM0 : 0 < M)
    (hM : M + (types.length + 5) * stride88 < u32Mod)
    (h : applySequentialRoadTypeIDs types existingTypes existingIDs
        = some (types', ids')) :
    types'.length = types.length ∧
    (∀ i, (types.getD i {}).ID ≠ 0 → types'.getD i {} = types.getD i {}) ∧
    (∀ i, i < types.length → (types.getD i {}).ID = 0 →
      (types'.getD i {}).ID % stride88 = rem ∧
      s.2.2 < (types'.getD i {}).ID ∧
      (types'.getD i {}).ID ∉ existingIDs ∧
      (types'.getD i {}).ID ∈ ids') ∧
    (∀ i j, i < j → j < types.length → (types.getD i {}).ID = 0 →
      (types.getD j {}).ID = 0 →
      (types'.getD i {}).ID < (types'.getD j {}).ID ∧
      ((types'.getD j {}).ID - (types'.getD i {}).ID) % stride88 = 0) ∧
    (∀ x ∈ existingIDs, x ∈ ids') := by
  obtain ⟨rem0, haveRem, maxID⟩ := s
  have hsample := sampleIDs_inv M types
    (sampleIDs (0, false, 0) existingTypes)
    (sampleIDs_inv M existingTypes (0, false, 0) (by simp) hM0 hbX).1
    (sampleIDs_inv M existingTypes (0, false, 0) (by simp) hM0 hbX).2 hbT
  rw [← hs] at hsample
  have hmaxlt : maxID < M := hsample.2
  have hremlt : rem < stride88 := by
    rw [hrem]
    by_cases hh : haveRem = true
    · have := hsample.1 (by simpa using hh)
      simpa [hh] using this
    · have hf : haveRem = false := by
        cases hq : haveRem
        · rfl
        · exact absurd hq hh
      simp only [hf, Bool.false_eq_true, if_false]
      unfold stride88; omega
  unfold applySequentialRoadTypeIDs at h
  simp only [] at h
  rw [← hs] at h
  simp only [] at h
  rw [← hrem] at h
  have hn0 : (maxID + stride88) % u32Mod = maxID + stride88 :=
    Nat.mod_eq_of_lt (by unfold stride88 u32Mod at *; omega)
  rw [hn0] at h
  have key : ∀ N, N ≠ 0 → N % stride88 = rem →
      N < M + 2 * stride88 + stride88 → maxID < N →
      applySeqLoop rem types existingIDs N = some (types', ids') →
      types'.length = types.length ∧
      (∀ i, (types.getD i {}).ID ≠ 0 →
        types'.getD i {} = types.getD i {}) ∧
      (∀ i, i < types.length → (types.getD i {}).ID = 0 →
        (types'.getD i {}).ID % stride88 = rem ∧
        maxID < (types'.getD i {}).ID ∧
        (types'.getD i {}).ID ∉ existingIDs ∧
        (types'.getD i {}).ID ∈ ids') ∧
      (∀ i j, i < j → j < types.length → (types.getD i {}).ID = 0 →
        (types.getD j {}).ID = 0 →
        (types'.getD i {}).ID < (types'.getD j {}).ID ∧
        ((types'.getD j {}).ID - (types'.getD i {}).ID) % stride88 = 0) ∧
      (∀ x ∈ existingIDs, x ∈ ids') := by
    intro N h1 h2 h3 h4 hN
    exact applySeqLoop_spec rem types existingIDs N (M + 2 * stride88)
      maxID types' ids'
      (by intro x hx; have := hbE x hx; omega)
      (by unfold stride88 u32Mod at *; omega)
      h1 h2 h3 h4 hN
  split at h
  · next hoff =>
    split at h
    · next hlt =>
      have hw : (maxID + stride88 +
            (rem - (maxID + stride88) % stride88)) % u32Mod =
          maxID + stride88 + (rem - (maxID + stride88) % stride88) :=
        Nat.mod_eq_of_lt (by unfold stride88 u32Mod at *; omega)
      rw [hw] at h
      exact key _ (by unfold stride88 at *; omega)
        (by unfold stride88 at *; omega)
        (by unfold stride88 at *; omega)
        (by unfold stride88 at *; omega) h
    · next hge =>
      have hw : (maxID + stride88 +
            (stride88 - (maxID + stride88) % stride88 + rem)) % u32Mod =
          maxID + stride88 +
            (stride88 - (maxID + stride88) % stride88 + rem) :=
        Nat.mod_eq_of_lt (by unfold stride88 u32Mod at *; omega)
      rw [hw] at h
      exact key _ (by unfold stride88 at *; omega)
        (by unfold stride88 at *; omega)
        (by unfold stride88 at *; omega)
        (by unfold stride88 at *; omega) h
  · next hoff =>
    exact key _ (by unfold stride88 at *; omega)
      (by unfold stride88 at *; omega)
      (by unfold stride88 at *; omega)
      (by unfold stride88 at *; omega) h

/-- C6 counterexample: the stride remainder is sampled from explicit
config ids as well as file ids.  Here the file holds no road-type ids
at all, yet the fresh id 77 is congruent to the explicit config id 5
modulo 0x48 instead of to the claimed fallback remainder 0x0C. -/
theorem C6_counterexample :
    applySequentialRoadTypeIDs
        [{ Name := "x".toList, ID := 5 }, { Name := "y".toList }] [] [] =
      some ([{ Name := "x".toList, ID := 5 },
             { Name := "y".toList, ID := 77 }], [77]) ∧
    77 % stride88 = 5 ∧ (0x0C : Nat) ≠ 5 :=
  ⟨rfl, rfl, by decide⟩

/-- Concrete config for the C6 witness: one unnumbered type. -/
def tyC6 : List RoadType := [{ Name := "y".toList }]

/-- Concrete file types for the C6 witness. -/
def exC6 : List RoadType := [{ Name := "x".toList, ID := 77 }]

/-- Output types of the C6 witness run. -/
def tyC6out : List RoadType := [{ Name := "y".toList, ID := 149 }]

/-- C6 witness: a concrete run where the fresh id 149 keeps the sampled
remainder 5, exceeds the sampled maximum 77 and avoids the file id 77. -/
theorem C6_sequential_road_type_ids_witness :
    (tyC6out.getD 0 {}).ID % stride88 = 5 ∧
    77 < (tyC6out.getD 0 {}).ID ∧
    (tyC6out.getD 0 {}).ID ∉ ([77] : List Nat) ∧
    (tyC6out.getD 0 {}).ID ∈ ([77, 149] : List Nat) := by
  have H := C6_sequential_road_type_ids tyC6 exC6 [77] 300 tyC6out
    [77, 149] (5, true, 77) 5 rfl rfl
    (by decide) (by decide) (by decide) (by decide) (by decide) rfl
  exact H.2.2.1 0 (by decide) rfl

/-! ## C4: nil versus empty crossroad-type lists -/

/-- Validation of an empty crossroad list always succeeds. -/
theorem validateCrossroads_nil (roadTypes : List RoadType) :
    ValidateCrossroads [] roadTypes = .ok () := rfl

/-- Reordering is skipped for an empty crossroad list. -/
theorem shouldReorderCrossroads_someNil (ts : List RoadType) :
    shouldReorderCrossroads { Types := ts, CrossroadTypes := some [] } =
      false := rfl

/-- The serialized empty crossroad-definitions field: tag `0x89`, type
`0x0C`, payload length 4 and entry count 0. -/
def emptyCrossDefsField : List Nat := [0x89, 0, 0x0C, 4, 0, 0, 0, 0, 0, 0, 0]

/-- Building the crossroad fields of an empty (but present) crossroad
list yields the zero-entry definitions field. -/
theorem buildCrossroadFields_someNil (ts : List RoadType)
    (existingIDs : List Nat) :
    buildCrossroadFields { Types := ts, CrossroadTypes := some [] }
      existingIDs false = .ok (emptyCrossDefsField, []) := rfl

/-- `crossroadsPhase` on an empty (but present) crossroad list replaces
the definitions field with the zero-entry field and nothing else. -/
theorem crossroadsPhase_someNil (data : List Nat) (ts : List RoadType)
    (block : RoadTypesBlock) (existingIDs : List Nat)
    (crDefs crLinks : taggedList) (repls : List Replacement) (d89 d8A : Int)
    (h : crossroadsPhase data { Types := ts, CrossroadTypes := some [] }
        block existingIDs crDefs crLinks = .ok (repls, d89, d8A)) :
    repls = [{ blob := emptyCrossDefsField, start := crDefs.Start,
               endPos := crDefs.Start + crDefs.FieldLen }] ∧
    d89 = 4 - (crDefs.ListLen : Int) ∧ d8A = 0 := by
  unfold crossroadsPhase at h
  by_cases hF : crDefs.Found = true ∧ crLinks.Found = true
  case neg =>
    rw [if_pos hF] at h
    exact absurd h (by simp)
  case pos =>
    rw [if_neg (not_not_intro hF)] at h
    simp only [] at h
    by_cases hts : ts.length = 0
    · rw [if_pos hts] at h
      simp only [Option.getD_some, List.any_nil] at h
      rw [validateCrossroads_nil] at h
      simp only [] at h
      rw [shouldReorderCrossroads_someNil] at h
      simp only [Bool.false_eq_true, if_false] at h
      simp only [Option.getD_some, List.any_nil] at h
      simp only [Bool.false_eq_true, if_false] at h
      rw [buildCrossroadFields_someNil] at h
      simp only [] at h
      rw [show readU32 (emptyCrossDefsField.drop 3) = 4 from rfl] at h
      by_cases hmr : crLinks.Start < crDefs.Start + crDefs.FieldLen ∨
        crLinks.Start > data.length
      · rw [if_pos hmr] at h
        exact absurd h (by simp)
      · rw [if_neg hmr] at h
        simp only [Except.ok.injEq, Prod.mk.injEq] at h
        obtain ⟨h1, h2, h3⟩ := h
        refine ⟨h1.symm, by omega, h3.symm⟩
    · rw [if_neg hts] at h
      simp only [Option.getD_some, List.any_nil] at h
      rw [validateCrossroads_nil] at h
      simp only [] at h
      rw [shouldReorderCrossroads_someNil] at h
      simp only [Bool.false_eq_true, if_false] at h
      simp only [Option.getD_some, List.any_nil] at h
      simp only [Bool.false_eq_true, if_false] at h
      rw [buildCrossroadFields_someNil] at h
      simp only [] at h
      rw [show readU32 (emptyCrossDefsField.drop 3) = 4 from rfl] at h
      by_cases hmr : crLinks.Start < crDefs.Start + crDefs.FieldLen ∨
        crLinks.Start > data.length
      · rw [if_pos hmr] at h
        exact absurd h (by simp)
      · rw [if_neg hmr] at h
        simp only [Except.ok.injEq, Prod.mk.injEq] at h
        obtain ⟨h1, h2, h3⟩ := h
        refine ⟨h1.symm, by omega, h3.symm⟩

/-- A crossroad-definition entry: id 9, one name and one path string. -/
def defEntryBytes : List Nat :=
  [6, 0, 0x0D, 18, 0, 0, 0, 0x17, 0, 9, 0, 0, 0,
   0x33, 0, 0x0B, 1, 0, 107, 0x7C, 0, 0x0B, 1, 0, 109]

/-- A crossroad-link entry: id 10, one string field. -/
def linkEntryBytes : List Nat :=
  [6, 0, 0x0D, 12, 0, 0, 0, 0x1A, 0, 10, 0, 0, 0,
   0x91, 0, 0x0B, 1, 0, 109]

/-- A serialized one-entry crossroad-definitions (0x89) field. -/
def defsField : List Nat :=
  [0x89, 0, 0x0C] ++ u32Bytes (4 + defEntryBytes.length) ++ u32Bytes 1 ++
    defEntryBytes

/-- A serialized one-entry crossroad-links (0x8A) field. -/
def linksField : List Nat :=
  [0x8A, 0, 0x0C] ++ u32Bytes (4 + linkEntryBytes.length) ++ u32Bytes 1 ++
    linkEntryBytes

/-- The serialized road-types field of the one-type config `[rtAA]`. -/
def field88one : List Nat :=
  match buildRoadTypesEntries { Types := [rtAA] } [] with
  | .ok entries => (fieldList 0x88 entries).toOption.getD []
  | .error _ => []

/-- The dependent 0x18/0x0D offset field snippet, value 0. -/
def snippet18 : List Nat := [0x18, 0, 0x0D, 0, 0, 0, 0]

/-- The dependent 0x3E/0x0D offset field snippet, value 0. -/
def snippet3E : List Nat := [0x3E, 0, 0x0D, 0, 0, 0, 0]

/-- A host file with a road-types list, both crossroad lists and the two
dependent offset fields. -/
def dataD : List Nat :=
  field88one ++ defsField ++ linksField ++ snippet18 ++ snippet3E

/-- The parsed road-types block of `dataD`. -/
def blockD : RoadTypesBlock :=
  match ParseRoadTypes dataD with
  | .ok b => b
  | .error _ => {}

/-- The crossroad-definitions list discovered in `dataD`. -/
def crD4 : taggedList :=
  (findTaggedListAfter dataD (blockD.Start + 7 + blockD.ListLen) 0x89
    validateCrossroadDefs).1

/-- The single replacement planned by the empty-crossroads patch of
`dataD`. -/
def replsD4 : List Replacement :=
  [{ blob := emptyCrossDefsField, start := 123, endPos := 159 }]

/-! ## C5: scope framing of the patch -/

/-- `sortReplsInner` preserves the list length. -/
theorem sortReplsInner_length (n i : Nat) :
    ∀ fuel j repls,
      (sortReplsInner n i fuel j repls).length = repls.length := by
  intro fuel
  induction fuel with
  | zero => intro j repls; rfl
  | succ f ih =>
    intro j repls
    rw [sortReplsInner]
    split
    · rw [ih]
      split
      · simp [List.length_set]
      · rfl
    · rfl

/-- `sortReplsInner` keeps every elementwise invariant. -/
theorem sortReplsInner_forall (P : Replacement → Prop) (n i : Nat) :
    ∀ fuel j repls, n ≤ repls.length → i < n →
      (∀ r ∈ repls, P r) → ∀ r ∈ sortReplsInner n i fuel j repls, P r := by
  intro fuel
  induction fuel with
  | zero => intro j repls _ _ hP; exact hP
  | succ f ih =>
    intro j repls hn hi hP
    rw [sortReplsInner]
    split
    · next hj =>
      simp only []
      split
      · next hgt =>
        refine ih (j + 1) _ ?_ hi ?_
        · simpa [List.length_set] using hn
        · intro r hr
          rcases List.mem_or_eq_of_mem_set hr with hr | hr
          · rcases List.mem_or_eq_of_mem_set hr with hr | hr
            · exact hP r hr
            · subst hr
              have hjl : j < repls.length := by omega
              rw [List.getD_eq_getElem repls default hjl]
              exact hP _ (List.getElem_mem hjl)
          · subst hr
            have hil : i < repls.length := by omega
            rw [List.getD_eq_getElem repls default hil]
            exact hP _ (List.getElem_mem hil)
      · exact ih (j + 1) repls hn hi hP
    · exact hP

/-- `sortReplsOuter` preserves the list length. -/
theorem sortReplsOuter_length (n : Nat) :
    ∀ fuel i repls, (sortReplsOuter n fuel i repls).length = repls.length := by
  intro fuel
  induction fuel with
  | zero => intro i repls; rfl
  | succ f ih =>
    intro i repls
    rw [sortReplsOuter]
    split
    · rw [ih, sortReplsInner_length]
    · rfl

/-- `sortReplsOuter` keeps every elementwise invariant. -/
theorem sortReplsOuter_forall (P : Replacement → Prop) (n : Nat) :
    ∀ fuel i repls, n ≤ repls.length →
      (∀ r ∈ repls, P r) → ∀ r ∈ sortReplsOuter n fuel i repls, P r := by
  intro fuel
  induction fuel with
  | zero => intro i repls _ hP; exact hP
  | succ f ih =>
    intro i repls hn hP
    rw [sortReplsOuter]
    split
    · next hi =>
      refine ih (i + 1) _ ?_
        (sortReplsInner_forall P n i n (i + 1) repls hn hi hP)
      rw [sortReplsInner_length]
      exact hn
    · exact hP

/-- The descending sort keeps every elementwise invariant. -/
theorem sortReplsDesc_forall (P : Replacement → Prop)
    (repls : List Replacement) (hP : ∀ r ∈ repls, P r) :
    ∀ r ∈ sortReplsDesc repls, P r :=
  sortReplsOuter_forall P repls.length repls.length 0 repls (le_refl _) hP

/-- Sorting a single replacement is the identity. -/
theorem sortReplsDesc_single (r : Replacement) :
    sortReplsDesc [r] = [r] := rfl

/-- Splicing replacements that all start at or after `A` preserves the
first `A` bytes of the buffer. -/
theorem applyRepls_take (A : Nat) :
    ∀ repls out td out' td', (∀ r ∈ repls, A ≤ r.start) →
      applyRepls repls out td = .ok (out', td') →
      out'.take A = out.take A := by
  intro repls
  induction repls with
  | nil =>
    intro out td out' td' _ h
    simp only [applyRepls, Except.ok.injEq, Prod.mk.injEq] at h
    rw [h.1]
  | cons r rest ih =>
    intro out td out' td' hA h
    rw [applyRepls] at h
    split at h
    · exact absurd h (by simp)
    · next hrange =>
      push_neg at hrange
      have hstart := hA r (List.mem_cons_self r rest)
      have hsle : r.start ≤ out.length := le_trans hrange.1 hrange.2
      have H := ih _ _ out' td'
        (fun x hx => hA x (List.mem_cons_of_mem r hx)) h
      rw [H]
      have hlen : (out.take r.start).length = r.start := by
        rw [List.length_take]
        omega
      rw [List.take_append_eq_append_take, List.take_append_eq_append_take,
        List.take_take, List.length_append, hlen]
      have h1 : min A r.start = A := by omega
      have h2 : A - r.start = 0 := by omega
      have h3 : A - (r.start + r.blob.length) = 0 := by omega
      rw [h1, h2, h3, List.take_zero, List.take_zero, List.append_nil,
        List.append_nil]

/-- A successful tagged-list candidate records its scan index as `Start`
and is marked found. -/
theorem taggedListCandidate_start (data : List Nat) (tag : Nat)
    (v : List Entry → Bool) (i : Nat) (tl : taggedList)
    (h : taggedListCandidate data tag v i = some tl) :
    tl.Start = i ∧ tl.Found = true := by
  unfold taggedListCandidate at h
  split at h
  · simp only [] at h
    split at h
    · exact absurd h (by simp)
    · split at h
      · exact absurd h (by simp)
      · split at h
        · exact absurd h (by simp)
        · split at h
          · simp only [Option.some.injEq] at h
            subst h
            exact ⟨rfl, rfl⟩
          · exact absurd h (by simp)
  · exact absurd h (by simp)

/-- A found tagged list starts at or after the scan origin. -/
theorem findTaggedListAfter_start (data : List Nat) (from' : Nat)
    (tag : Nat) (v : List Entry → Bool) :
    ∀ tl b, findTaggedListAfter data from' tag v = (tl, b) →
      tl.Found = true → from' ≤ tl.Start := by
  intro tl b h hf
  unfold findTaggedListAfter at h
  split at h
  · simp only [Prod.mk.injEq] at h
    rw [← h.1] at hf
    exact absurd hf (by decide)
  · split at h
    · next tl' heq =>
      simp only [Prod.mk.injEq] at h
      obtain ⟨a, ha, hc⟩ := List.exists_of_findSome?_eq_some heq
      obtain ⟨k, hk, hak⟩ := List.mem_map.mp ha
      have hs := (taggedListCandidate_start data tag v a tl' hc).1
      rw [← h.1, hs]
      omega
    · simp only [Prod.mk.injEq] at h
      rw [← h.1] at hf
      exact absurd hf (by decide)

/-- A successful roads phase plans exactly one replacement, covering
the road-types field byte range. -/
theorem roadsPhase_repl (cfg : RoadConfig) (block : RoadTypesBlock)
    (ids : List Nat) (cfg' : RoadConfig) (ids' : List Nat)
    (repls : List Replacement) (d88 : Int)
    (h : roadsPhase cfg block ids = .ok (cfg', ids', repls, d88)) :
    ∃ blob, repls = [{ blob := blob, start := block.Start,
                       endPos := block.Start + (7 + block.ListLen) }] := by
  unfold roadsPhase at h
  split at h
  · exact absurd h (by simp)
  · simp only [] at h
    split at h
    · exact absurd h (by simp)
    · split at h
      · exact absurd h (by simp)
      · split at h
        · exact absurd h (by simp)
        · next roadTypesField heq =>
          simp only [Except.ok.injEq, Prod.mk.injEq] at h
          exact ⟨roadTypesField, h.2.2.1.symm⟩

/-- A successful crossroads phase requires both lists to be found and
plans replacements only at or after the definitions list start. -/
theorem crossroadsPhase_ranges (data : List Nat) (cfg : RoadConfig)
    (block : RoadTypesBlock) (ids : List Nat) (crDefs crLinks : taggedList)
    (repls : List Replacement) (d89 d8A : Int)
    (h : crossroadsPhase data cfg block ids crDefs crLinks
        = .ok (repls, d89, d8A)) :
    crDefs.Found = true ∧ crLinks.Found = true ∧
    ∀ r ∈ repls, crDefs.Start ≤ r.start := by
  unfold crossroadsPhase at h
  split at h
  · exact absurd h (by simp)
  · next hF =>
    push_neg at hF
    simp only [] at h
    repeat' split at h
    all_goals try exact Except.noConfusion h
    all_goals
      simp only [Except.ok.injEq, Prod.mk.injEq] at h
      obtain ⟨h1, h2, h3⟩ := h
      subst h1
      refine ⟨hF.1, hF.2, ?_⟩
      intro r hr
      simp only [List.mem_cons, List.not_mem_nil, or_false] at hr
      rcases hr with rfl | rfl | rfl
      all_goals (simp only []; omega)

/-- Reading back four little-endian bytes recovers the written value. -/
theorem readU32_u32Bytes (v : Nat) (tail : List Nat) (hv : v < 4294967296) :
    readU32 (u32Bytes v ++ tail) = v := by
  have hb : (u32Bytes v ++ tail).length = tail.length + 4 := by
    simp [u32Bytes]
  unfold readU32
  rw [if_neg (by rw [hb]; omega)]
  unfold byteAt u32Bytes
  simp only [List.cons_append, List.nil_append, List.getD_cons_zero,
    List.getD_cons_succ]
  omega

/-- A successful dependent-offset repair is either the zero-delta no-op
or rewrites exactly the 4-byte value window after the signature with the
old value plus the delta, clamped at zero. -/
theorem adjustOffsetsByTag_ok (data : List Nat) (tag typ : Nat)
    (delta : Int) (out : List Nat)
    (h : adjustOffsetsByTag data tag typ delta = .ok out) :
    (delta = 0 ∧ out = data) ∨
    ∃ pos, bytesIndex data [tag, 0, typ] = some pos ∧
      pos + 7 ≤ data.length ∧
      out = data.take (pos + 3) ++
        u32Bytes (Int.toNat (max 0
          ((readU32 (data.drop (pos + 3)) : Int) + delta))) ++
        data.drop (pos + 7) ∧
      readU32 (out.drop (pos + 3)) =
        Int.toNat (max 0 ((readU32 (data.drop (pos + 3)) : Int) + delta)) := by
  unfold adjustOffsetsByTag at h
  by_cases hd : delta = 0
  · rw [if_pos hd] at h
    simp only [Except.ok.injEq] at h
    exact Or.inl ⟨hd, h.symm⟩
  · rw [if_neg hd] at h
    simp only [] at h
    have hif : ∀ x : Int, (if x < 0 then (0 : Int) else x) = max 0 x := by
      intro x
      split <;> omega
    simp only [hif] at h
    repeat' split at h
    all_goals try exact Except.noConfusion h
    rename_i hrange hcount x1 pos hbi hlen x2 bytes hw
    simp only [Except.ok.injEq] at h
    unfold writeU32FromInt at hw
    split at hw
    · exact Except.noConfusion hw
    · next hr2 =>
      push_neg at hr2
      simp only [Except.ok.injEq] at hw
      have hvlt : Int.toNat (max 0 ((readU32 (data.drop (pos + 3)) : Int)
          + delta)) < 4294967296 := by omega
      have hTlen : (data.take (pos + 3)).length = pos + 3 := by
        rw [List.length_take]
        omega
      refine Or.inr ⟨pos, hbi, by omega, ?_, ?_⟩
      · rw [← h, ← hw]
      · rw [← h, ← hw]
        rw [List.drop_append_eq_append_drop, List.drop_append_eq_append_drop,
          List.length_append, hTlen, Nat.sub_self, List.drop_zero,
          List.drop_eq_nil_of_le (le_of_eq hTlen), List.nil_append,
          Nat.sub_eq_zero_of_le (Nat.le_add_right _ _), List.drop_zero]
        exact readU32_u32Bytes _ _ hvlt


/-- C5 (amended): the splice phase is scope-framed.  A roads-scoped
patch plans a single replacement covering exactly the road-type field's
byte range, so the output is that field followed by the untouched
remainder of the file; a crossroads-scoped patch splices only at or
after the end of the road-type list, leaving the road-type list's bytes
in place.  The dependent-offset repair that follows rewrites at most the
two 4-byte value windows after the `18 00 0D` and `3E 00 0D` signatures,
wherever those signatures happen to sit in the buffer. -/
theorem C5_scope_frame (data : List Nat) (cfg : RoadConfig)
    (block : RoadTypesBlock)
    (hp : ParseRoadTypes data = .ok block) :
    (∀ repls d88 d89 d8A out td,
      patchCore data cfg .roads = .ok (repls, d88, d89, d8A) →
      applyRepls (sortReplsDesc repls) data 0 = .ok (out, td) →
      d89 = 0 ∧ d8A = 0 ∧
      ∃ blob, repls = [{ blob := blob, start := block.Start,
                         endPos := block.Start + (7 + block.ListLen) }] ∧
        out = data.take block.Start ++ blob ++
          data.drop (block.Start + (7 + block.ListLen))) ∧
    (∀ repls d88 d89 d8A out td,
      patchCore data cfg .crossroads = .ok (repls, d88, d89, d8A) →
      applyRepls (sortReplsDesc repls) data 0 = .ok (out, td) →
      d88 = 0 ∧ (∀ r ∈ repls, block.Start + 7 + block.ListLen ≤ r.start) ∧
      out.take (block.Start + 7 + block.ListLen) =
        data.take (block.Start + 7 + block.ListLen)) ∧
    (∀ buf td d88 d89 d8A out',
      adjustDependentOffsets buf td d88 d89 d8A = .ok out' →
      ∃ mid,
        (mid = buf ∨ ∃ pos w, bytesIndex buf [0x18, 0, 0x0D] = some pos ∧
          mid = buf.take (pos + 3) ++ w ++ buf.drop (pos + 7)) ∧
        (out' = mid ∨ ∃ pos w, bytesIndex mid [0x3E, 0, 0x0D] = some pos ∧
          out' = mid.take (pos + 3) ++ w ++ mid.drop (pos + 7))) := by
  refine ⟨?_, ?_, ?_⟩
  · intro repls d88 d89 d8A out td h1 h2
    unfold patchCore at h1
    rw [hp] at h1
    simp only [] at h1
    rw [show Scope.IncludesRoads Scope.roads = true from rfl] at h1
    simp only [eq_self_iff_true, if_true] at h1
    split at h1
    · exact Except.noConfusion h1
    · rename_i cfg1 ids1 repls1 d88x heqr
      rw [show Scope.IncludesCrossroads Scope.roads = false from rfl] at h1
      simp only [Bool.false_eq_true, false_and, if_false] at h1
      simp only [Except.ok.injEq, Prod.mk.injEq] at h1
      obtain ⟨hr, hd88, hd89, hd8A⟩ := h1
      obtain ⟨blob, hrepls⟩ := roadsPhase_repl cfg block
        (collectEntryIDs data) cfg1 ids1 repls1 d88x heqr
      subst hr
      subst hrepls
      refine ⟨hd89.symm, hd8A.symm, blob, rfl, ?_⟩
      rw [sortReplsDesc_single] at h2
      rw [applyRepls] at h2
      split at h2
      · exact Except.noConfusion h2
      · simp only [applyRepls, Except.ok.injEq, Prod.mk.injEq] at h2
        rw [← h2.1]
  · intro repls d88 d89 d8A out td h1 h2
    unfold patchCore at h1
    rw [hp] at h1
    simp only [] at h1
    rw [show Scope.IncludesRoads Scope.crossroads = false from rfl] at h1
    simp only [Bool.false_eq_true, if_false] at h1
    rw [show Scope.IncludesCrossroads Scope.crossroads = true from rfl] at h1
    by_cases hS : cfg.CrossroadTypes.isSome = true
    · rw [if_pos ⟨rfl, hS⟩] at h1
      split at h1
      · exact Except.noConfusion h1
      · rename_i r2 d89x d8Ax heqc
        simp only [Except.ok.injEq, Prod.mk.injEq, List.nil_append] at h1
        obtain ⟨hr, hd88, hd89, hd8A⟩ := h1
        have hc := crossroadsPhase_ranges data cfg block
          (collectEntryIDs data) _ _ r2 d89x d8Ax heqc
        have hge : block.Start + 7 + block.ListLen ≤
            ((findTaggedListAfter data (block.Start + 7 + block.ListLen)
              0x89 validateCrossroadDefs).1).Start :=
          findTaggedListAfter_start data _ 0x89 validateCrossroadDefs
            _ _ rfl hc.1
        have hstarts : ∀ r ∈ repls,
            block.Start + 7 + block.ListLen ≤ r.start := by
          subst hr
          intro r hrm
          exact le_trans hge (hc.2.2 r hrm)
        exact ⟨hd88.symm, hstarts, applyRepls_take _ _ data 0 out td
          (sortReplsDesc_forall _ repls hstarts) h2⟩
    · rw [if_neg (fun hcond => hS hcond.2)] at h1
      simp only [Except.ok.injEq, Prod.mk.injEq] at h1
      obtain ⟨hr, hd88, hd89, hd8A⟩ := h1
      subst hr
      refine ⟨hd88.symm, ?_, ?_⟩
      · intro r hrm
        exact absurd hrm (List.not_mem_nil r)
      · rw [show sortReplsDesc [] = [] from rfl] at h2
        simp only [applyRepls, Except.ok.injEq, Prod.mk.injEq] at h2
        rw [← h2.1]
  · intro buf td d88 d89 d8A out' h
    unfold adjustDependentOffsets at h
    split at h
    · split at h
      · exact Except.noConfusion h
      · rename_i out1 heq1
        split at h
        · exact Except.noConfusion h
        · rename_i out2 heq2
          simp only [Except.ok.injEq] at h
          refine ⟨out1, ?_, ?_⟩
          · rcases adjustOffsetsByTag_ok buf 0x18 0x0D _ out1 heq1 with
              ⟨_, hid⟩ | ⟨pos, hbi, _, hout, _⟩
            · exact Or.inl hid
            · exact Or.inr ⟨pos, _, hbi, hout⟩
          · rcases adjustOffsetsByTag_ok out1 0x3E 0x0D _ out2 heq2 with
              ⟨_, hid⟩ | ⟨pos, hbi, _, hout, _⟩
            · exact Or.inl (h ▸ hid.symm ▸ rfl)
            · exact Or.inr ⟨pos, _, hbi, h ▸ hout⟩
    · simp only [Except.ok.injEq] at h
      exact ⟨buf, Or.inl rfl, Or.inl h.symm⟩


/-- A road-type name that embeds the dependent-offset signature
`18 00 0D` followed by the value bytes 100,0,0,0. -/
def weirdName : GoStr :=
  [Char.ofNat 0x18, Char.ofNat 0, Char.ofNat 0x0D, 'd',
   Char.ofNat 0, Char.ofNat 0, Char.ofNat 0]

/-- A road type carrying the signature-bearing name. -/
def rtW : RoadType := { Name := weirdName, ID := 5 }

/-- The serialized road-types field of the config `[rtW]`. -/
def field88w : List Nat :=
  match buildRoadTypesEntries { Types := [rtW] } [] with
  | .ok entries => (fieldList 0x88 entries).toOption.getD []
  | .error _ => []

/-- A host file whose only `18 00 0D` occurrence lies inside the
road-type list (within the name payload). -/
def dataE : List Nat := field88w ++ defsField ++ linksField ++ snippet3E

/-- The crossroads-scoped patch of `dataE`. -/
def outE : List Nat :=
  (PatchRoadTool dataE { Types := [], CrossroadTypes := some [] }
    .crossroads).toOption.getD []

/-- C5 counterexample: a crossroads-scoped patch of `dataE` succeeds,
the road-type list spans bytes 0..128, the unique roomy `18 00 0D`
signature sits at byte 29 inside that list, and the patched output
differs from the input within the road-type list's byte range — the
dependent-offset repair mutated bytes of the out-of-scope list. -/
theorem C5_counterexample :
    PatchRoadTool dataE { Types := [], CrossroadTypes := some [] }
        .crossroads = .ok outE ∧
    (ParseRoadTypes dataE).toOption.map
        (fun b => b.Start + 7 + b.ListLen) = some 128 ∧
    bytesIndex dataE [0x18, 0, 0x0D] = some 29 ∧
    countRoomy dataE [0x18, 0, 0x0D] = 1 ∧
    outE.take 128 ≠ dataE.take 128 :=
  ⟨rfl, rfl, rfl, rfl, by decide⟩

/-- The spliced buffer of the empty-crossroads patch of `dataD`. -/
def outD5 : List Nat :=
  dataD.take 123 ++ emptyCrossDefsField ++ dataD.drop 159

/-- C5 witness: on `dataD`, the crossroads-scoped splice keeps the
road-type list's first 123 bytes in place. -/
theorem C5_scope_frame_witness :
    (0 : Int) = 0 ∧
    (∀ r ∈ replsD4, blockD.Start + 7 + blockD.ListLen ≤ r.start) ∧
    outD5.take (blockD.Start + 7 + blockD.ListLen) =
      dataD.take (blockD.Start + 7 + blockD.ListLen) :=
  (C5_scope_frame dataD { Types := [], CrossroadTypes := some [] }
    blockD rfl).2.1 replsD4 0 (-25) 0 outD5 (-25) rfl (by rfl)


/-! ## C1: the dependent offset fields -/

/-- C1 (amended): when the total splice delta is non-zero, the repair
rewrites the u32 after the unique `18 00 0D` signature to its pre-patch
value plus `d88 + d89 + d8A` and the u32 after the unique `3E 00 0D`
signature to its pre-patch value plus `d88 + d89`, in both cases clamped
at zero rather than exact; a zero-combination stage and the whole repair
under a zero total delta leave the buffer untouched. -/
theorem C1_dependent_offset_values (out : List Nat) (td d88 d89 d8A : Int)
    (out' : List Nat)
    (h : adjustDependentOffsets out td d88 d89 d8A = .ok out') :
    (td = 0 ∧ out' = out) ∨
    ∃ out1,
      adjustOffsetsByTag out 0x18 0x0D (d88 + d89 + d8A) = .ok out1 ∧
      adjustOffsetsByTag out1 0x3E 0x0D (d88 + d89) = .ok out' ∧
      ((d88 + d89 + d8A = 0 ∧ out1 = out) ∨
        ∃ pos, bytesIndex out [0x18, 0, 0x0D] = some pos ∧
          readU32 (out1.drop (pos + 3)) =
            Int.toNat (max 0 ((readU32 (out.drop (pos + 3)) : Int) +
              (d88 + d89 + d8A)))) ∧
      ((d88 + d89 = 0 ∧ out' = out1) ∨
        ∃ pos, bytesIndex out1 [0x3E, 0, 0x0D] = some pos ∧
          readU32 (out'.drop (pos + 3)) =
            Int.toNat (max 0 ((readU32 (out1.drop (pos + 3)) : Int) +
              (d88 + d89)))) := by
  unfold adjustDependentOffsets at h
  split at h
  · split at h
    · exact Except.noConfusion h
    · rename_i out1 heq1
      split at h
      · exact Except.noConfusion h
      · rename_i out2 heq2
        simp only [Except.ok.injEq] at h
        subst h
        refine Or.inr ⟨out1, heq1, heq2, ?_, ?_⟩
        · rcases adjustOffsetsByTag_ok out 0x18 0x0D _ out1 heq1 with
            ⟨hz, hid⟩ | ⟨pos, hbi, _, _, hval⟩
          · exact Or.inl ⟨hz, hid⟩
          · exact Or.inr ⟨pos, hbi, hval⟩
        · rcases adjustOffsetsByTag_ok out1 0x3E 0x0D _ out2 heq2 with
            ⟨hz, hid⟩ | ⟨pos, hbi, _, _, hval⟩
          · exact Or.inl ⟨hz, hid⟩
          · exact Or.inr ⟨pos, hbi, hval⟩
  · next htd =>
    push_neg at htd
    simp only [Except.ok.injEq] at h
    exact Or.inl ⟨htd, h.symm⟩

/-- Road type `aaaa` with explicit id 5. -/
def rtA4 : RoadType := { Name := "aaaa".toList, ID := 5 }

/-- The serialized road-types field of the config `[rtA4]`. -/
def field88old : List Nat :=
  match buildRoadTypesEntries { Types := [rtA4] } [] with
  | .ok entries => (fieldList 0x88 entries).toOption.getD []
  | .error _ => []

/-- A host file with a road-types list and both dependent offset fields
holding value zero. -/
def dataB : List Nat := field88old ++ snippet18 ++ snippet3E

/-- A shrinking config: the name `aa` is two bytes shorter than
`aaaa`. -/
def cfgB : RoadConfig := { Types := [{ Name := "aa".toList, ID := 5 }] }

/-- The roads-scoped patch of `dataB`. -/
def outB : List Nat :=
  (PatchRoadTool dataB cfgB .roads).toOption.getD []

/-- C1 counterexample: the shrinking patch of `dataB` succeeds with list
delta −2, both dependent offset fields hold 0 before the patch, and
they still hold 0 after it — the claimed exact value 0 + (−2) is never
written because the repair clamps at zero. -/
theorem C1_counterexample :
    PatchRoadTool dataB cfgB .roads = .ok outB ∧
    (patchCore dataB cfgB .roads).toOption.map
        (fun x => (x.2.1, x.2.2.1, x.2.2.2)) = some (-2, 0, 0) ∧
    readU32 (dataB.drop (dataB.length - 4)) = 0 ∧
    readU32 (outB.drop (outB.length - 4)) = 0 ∧
    ((readU32 (dataB.drop (dataB.length - 4)) : Int) + (-2) ≠
      (readU32 (outB.drop (outB.length - 4)) : Int)) :=
  ⟨rfl, rfl, rfl, rfl, by decide⟩

/-- A buffer holding both dependent offset fields with values 5 and 7. -/
def bufC1 : List Nat :=
  [0x18, 0, 0x0D, 5, 0, 0, 0, 0x3E, 0, 0x0D, 7, 0, 0, 0]

/-- `bufC1` after the repair with deltas (1, 0, 0): values 6 and 8. -/
def bufC1b : List Nat :=
  [0x18, 0, 0x0D, 6, 0, 0, 0, 0x3E, 0, 0x0D, 8, 0, 0, 0]

/-- C1 witness: a concrete repair run with total delta 1. -/
theorem C1_dependent_offset_values_witness :
    ((1 : Int) = 0 ∧ bufC1b = bufC1) ∨
    ∃ out1,
      adjustOffsetsByTag bufC1 0x18 0x0D (1 + 0 + 0) = .ok out1 ∧
      adjustOffsetsByTag out1 0x3E 0x0D (1 + 0) = .ok bufC1b ∧
      ((1 + 0 + 0 : Int) = 0 ∧ out1 = bufC1 ∨
        ∃ pos, bytesIndex bufC1 [0x18, 0, 0x0D] = some pos ∧
          readU32 (out1.drop (pos + 3)) =
            Int.toNat (max 0 ((readU32 (bufC1.drop (pos + 3)) : Int) +
              (1 + 0 + 0)))) ∧
      ((1 + 0 : Int) = 0 ∧ bufC1b = out1 ∨
        ∃ pos, bytesIndex out1 [0x3E, 0, 0x0D] = some pos ∧
          readU32 (bufC1b.drop (pos + 3)) =
            Int.toNat (max 0 ((readU32 (out1.drop (pos + 3)) : Int) +
              (1 + 0)))) :=
  C1_dependent_offset_values bufC1 1 1 0 0 bufC1b rfl


/-! ## C4 (revisited): nil versus empty under every crossroads scope -/

/-- The roads phase never touches the crossroad-type list of the
config. -/
theorem roadsPhase_crossroadTypes (cfg : RoadConfig)
    (block : RoadTypesBlock) (ids : List Nat) (cfg' : RoadConfig)
    (ids' : List Nat) (repls : List Replacement) (d88 : Int)
    (h : roadsPhase cfg block ids = .ok (cfg', ids', repls, d88)) :
    cfg'.CrossroadTypes = cfg.CrossroadTypes := by
  unfold roadsPhase at h
  split at h
  · exact Except.noConfusion h
  · simp only [] at h
    split at h
    · exact Except.noConfusion h
    · split at h
      · exact Except.noConfusion h
      · split at h
        · exact Except.noConfusion h
        · simp only [Except.ok.injEq, Prod.mk.injEq] at h
          obtain ⟨h1, _⟩ := h
          subst h1
          rfl

/-- `crossroadsPhase` on any config whose crossroad list is present but
empty plans exactly the zero-entry definitions replacement. -/
theorem crossroadsPhase_empty_of (data : List Nat) (cfg : RoadConfig)
    (block : RoadTypesBlock) (ids : List Nat) (crDefs crLinks : taggedList)
    (repls : List Replacement) (d89 d8A : Int)
    (hc : cfg.CrossroadTypes = some [])
    (h : crossroadsPhase data cfg block ids crDefs crLinks
        = .ok (repls, d89, d8A)) :
    repls = [{ blob := emptyCrossDefsField, start := crDefs.Start,
               endPos := crDefs.Start + crDefs.FieldLen }] ∧
    d89 = 4 - (crDefs.ListLen : Int) ∧ d8A = 0 := by
  obtain ⟨ts, crt⟩ := cfg
  simp only [] at hc
  subst hc
  exact crossroadsPhase_someNil data ts block ids crDefs crLinks
    repls d89 d8A h

/-- C4 (amended): for every scope that includes crossroads, a `nil`
crossroad-type list plans no crossroad replacement — under
scope=crossroads the patch is the identity, and under scope=all the
only replacement covers the road-type field's byte range, so the splice
reproduces every crossroad-list byte unchanged (merely shifted); a
present-but-empty list plans the zero-entry definitions replacement
over the old definitions range under either scope.  The dependent-offset
repair that runs after the splice scans the whole buffer, so it can
still rewrite a 4-byte signature window inside the crossroad lists even
with a nil list (see the counterexample). -/
theorem C4_crossroad_nil_vs_empty (data : List Nat) (ts : List RoadType)
    (block : RoadTypesBlock) (crDefs : taggedList)
    (hp : ParseRoadTypes data = .ok block)
    (hcd : crDefs = (findTaggedListAfter data
        (block.Start + 7 + block.ListLen) 0x89 validateCrossroadDefs).1) :
    (PatchRoadTool data { Types := ts, CrossroadTypes := none }
        .crossroads = .ok data) ∧
    (∀ repls d88 d89 d8A out td,
      patchCore data { Types := ts, CrossroadTypes := none } .all
          = .ok (repls, d88, d89, d8A) →
      applyRepls (sortReplsDesc repls) data 0 = .ok (out, td) →
      d89 = 0 ∧ d8A = 0 ∧
      ∃ blob, repls = [{ blob := blob, start := block.Start,
                         endPos := block.Start + (7 + block.ListLen) }] ∧
        out = data.take block.Start ++ blob ++
          data.drop (block.Start + (7 + block.ListLen))) ∧
    (∀ repls d88 d89 d8A,
      patchCore data { Types := ts, CrossroadTypes := some [] }
          .crossroads = .ok (repls, d88, d89, d8A) →
      repls = [{ blob := emptyCrossDefsField, start := crDefs.Start,
                 endPos := crDefs.Start + crDefs.FieldLen }] ∧
      d88 = 0 ∧ d89 = 4 - (crDefs.ListLen : Int) ∧ d8A = 0) ∧
    (∀ repls d88 d89 d8A,
      patchCore data { Types := ts, CrossroadTypes := some [] } .all
          = .ok (repls, d88, d89, d8A) →
      (∃ blob, repls = [{ blob := blob, start := block.Start,
                          endPos := block.Start + (7 + block.ListLen) },
                        { blob := emptyCrossDefsField,
                          start := crDefs.Start,
                          endPos := crDefs.Start + crDefs.FieldLen }]) ∧
      d89 = 4 - (crDefs.ListLen : Int) ∧ d8A = 0) ∧
    readU32 (emptyCrossDefsField.drop 7) = 0 := by
  subst hcd
  refine ⟨?_, ?_, ?_, ?_, rfl⟩
  · have hpc : patchCore data { Types := ts, CrossroadTypes := none }
        .crossroads = .ok ([], 0, 0, 0) := by
      unfold patchCore
      rw [hp]
      rfl
    unfold PatchRoadTool
    rw [hpc]
    rfl
  · intro repls d88 d89 d8A out td h1 h2
    unfold patchCore at h1
    rw [hp] at h1
    simp only [] at h1
    rw [show Scope.IncludesRoads Scope.all = true from rfl] at h1
    simp only [eq_self_iff_true, if_true] at h1
    split at h1
    · exact Except.noConfusion h1
    · rename_i cfg1 ids1 repls1 d88x heqr
      have hct : cfg1.CrossroadTypes = none := by
        have hh := roadsPhase_crossroadTypes _ block (collectEntryIDs data)
          cfg1 ids1 repls1 d88x heqr
        simpa using hh
      rw [if_neg (by intro hcond; rw [hct] at hcond; simp at hcond)] at h1
      simp only [Except.ok.injEq, Prod.mk.injEq] at h1
      obtain ⟨hr, hd88, hd89, hd8A⟩ := h1
      obtain ⟨blob, hrepls⟩ := roadsPhase_repl _ block
        (collectEntryIDs data) cfg1 ids1 repls1 d88x heqr
      subst hr
      subst hrepls
      refine ⟨hd89.symm, hd8A.symm, blob, rfl, ?_⟩
      rw [sortReplsDesc_single] at h2
      rw [applyRepls] at h2
      split at h2
      · exact Except.noConfusion h2
      · simp only [applyRepls, Except.ok.injEq, Prod.mk.injEq] at h2
        rw [← h2.1]
  · intro repls d88 d89 d8A h
    unfold patchCore at h
    rw [hp] at h
    simp only [] at h
    rw [show Scope.IncludesRoads Scope.crossroads = false from rfl] at h
    simp only [Bool.false_eq_true, if_false] at h
    simp only [Option.isSome_some] at h
    rw [show Scope.IncludesCrossroads Scope.crossroads = true from rfl] at h
    simp only [eq_self_iff_true, true_and, and_true, if_true] at h
    revert h
    split
    · intro h
      exact absurd h (by simp)
    · next r2 d89x d8Ax heq =>
      intro h
      simp only [Except.ok.injEq, Prod.mk.injEq, List.nil_append] at h
      obtain ⟨hr, hd88, hd89, hd8A⟩ := h
      have hc := crossroadsPhase_someNil data ts block
        (collectEntryIDs data) _ _ r2 d89x d8Ax heq
      exact ⟨hr ▸ hc.1, hd88.symm, hd89 ▸ hc.2.1, hd8A ▸ hc.2.2⟩
  · intro repls d88 d89 d8A h1
    unfold patchCore at h1
    rw [hp] at h1
    simp only [] at h1
    rw [show Scope.IncludesRoads Scope.all = true from rfl] at h1
    simp only [eq_self_iff_true, if_true] at h1
    split at h1
    · exact Except.noConfusion h1
    · rename_i cfg1 ids1 repls1 d88x heqr
      have hct : cfg1.CrossroadTypes = some [] := by
        have hh := roadsPhase_crossroadTypes _ block (collectEntryIDs data)
          cfg1 ids1 repls1 d88x heqr
        simpa using hh
      rw [if_pos ⟨rfl, by rw [hct]; rfl⟩] at h1
      split at h1
      · exact Except.noConfusion h1
      · rename_i r2 d89x d8Ax heqc
        simp only [Except.ok.injEq, Prod.mk.injEq] at h1
        obtain ⟨hr, hd88, hd89, hd8A⟩ := h1
        have hce := crossroadsPhase_empty_of data cfg1 block ids1 _ _
          r2 d89x d8Ax hct heqc
        obtain ⟨blob, hrepls⟩ := roadsPhase_repl _ block
          (collectEntryIDs data) cfg1 ids1 repls1 d88x heqr
        subst hr
        refine ⟨⟨blob, ?_⟩, hd89 ▸ hce.2.1, hd8A ▸ hce.2.2⟩
        rw [hrepls, hce.1]
        rfl

/-- A crossroad-definition entry whose name payload embeds the
dependent-offset signature `18 00 0D` followed by the value 100. -/
def defEntryBytesW : List Nat :=
  [6, 0, 0x0D, 24, 0, 0, 0, 0x17, 0, 9, 0, 0, 0,
   0x33, 0, 0x0B, 7, 0, 0x18, 0, 0x0D, 0x64, 0, 0, 0,
   0x7C, 0, 0x0B, 1, 0, 109]

/-- The serialized one-entry crossroad-definitions field around
`defEntryBytesW`. -/
def defsFieldW : List Nat :=
  [0x89, 0, 0x0C] ++ u32Bytes (4 + defEntryBytesW.length) ++ u32Bytes 1 ++
    defEntryBytesW

/-- A host file whose only roomy `18 00 0D` occurrence lies inside the
crossroad-definitions list. -/
def dataF : List Nat := field88old ++ defsFieldW ++ linksField ++ snippet3E

/-- The full-scope patch of `dataF` under the shrinking config `cfgB`
with a nil crossroad list. -/
def outF : List Nat :=
  (PatchRoadTool dataF cfgB .all).toOption.getD []

/-- C4 counterexample: a scope=all patch with a nil crossroad-type list
succeeds on `dataF`, whose crossroad-definitions list spans bytes
125..167 and holds the only roomy `18 00 0D` signature at byte 154; the
output's post-road-types suffix is not byte-identical to the input's —
the offset repair rewrote the value 100 to 98 inside the
crossroad-definitions list, although the nil list promised the
crossroad lists untouched. -/
theorem C4_counterexample :
    PatchRoadTool dataF cfgB .all = .ok outF ∧
    cfgB.CrossroadTypes = none ∧
    (ParseRoadTypes dataF).toOption.map
        (fun b => b.Start + 7 + b.ListLen) = some 125 ∧
    (findTaggedListAfter dataF 125 0x89 validateCrossroadDefs).1.Found
        = true ∧
    (findTaggedListAfter dataF 125 0x89 validateCrossroadDefs).1.Start
        = 125 ∧
    (findTaggedListAfter dataF 125 0x89 validateCrossroadDefs).1.FieldLen
        = 42 ∧
    bytesIndex dataF [0x18, 0, 0x0D] = some 154 ∧
    countRoomy dataF [0x18, 0, 0x0D] = 1 ∧
    (125 ≤ 154 ∧ 154 + 7 ≤ 125 + 42) ∧
    (dataF.drop 154).take 7 = [0x18, 0, 0x0D, 100, 0, 0, 0] ∧
    (outF.drop 152).take 7 = [0x18, 0, 0x0D, 98, 0, 0, 0] ∧
    outF.drop 123 ≠ dataF.drop 125 :=
  ⟨rfl, rfl, rfl, rfl, rfl, rfl, rfl, rfl, by decide, rfl, rfl, by decide⟩

/-- The roads replacement planned on `dataD` for the one-type config. -/
def replsRoadD : List Replacement :=
  [{ blob := field88one, start := 0, endPos := 123 }]

/-- Both replacements planned on `dataD` by the full-scope
empty-crossroads patch. -/
def replsAllD : List Replacement :=
  [{ blob := field88one, start := 0, endPos := 123 },
   { blob := emptyCrossDefsField, start := 123, endPos := 159 }]

/-- C4 witness: on `dataD`, the nil-crossroads patch is the identity
under scope=crossroads and plans only the road-type replacement under
scope=all, while the empty-crossroads patch plans the zero-entry
definitions replacement under both scopes. -/
theorem C4_crossroad_nil_vs_empty_witness :
    PatchRoadTool dataD { Types := [rtAA], CrossroadTypes := none }
        .crossroads = .ok dataD ∧
    ((0 : Int) = 0 ∧ (0 : Int) = 0 ∧
      ∃ blob, replsRoadD = [{ blob := blob, start := blockD.Start,
                              endPos := blockD.Start +
                                (7 + blockD.ListLen) }] ∧
        dataD = dataD.take blockD.Start ++ blob ++
          dataD.drop (blockD.Start + (7 + blockD.ListLen))) ∧
    (replsD4 = [{ blob := emptyCrossDefsField, start := crD4.Start,
                  endPos := crD4.Start + crD4.FieldLen }] ∧
      (0 : Int) = 0 ∧ (-25 : Int) = 4 - (crD4.ListLen : Int) ∧
      (0 : Int) = 0) ∧
    ((∃ blob, replsAllD = [{ blob := blob, start := blockD.Start,
                             endPos := blockD.Start +
                               (7 + blockD.ListLen) },
                           { blob := emptyCrossDefsField,
                             start := crD4.Start,
                             endPos := crD4.Start + crD4.FieldLen }]) ∧
      (-25 : Int) = 4 - (crD4.ListLen : Int) ∧ (0 : Int) = 0) ∧
    readU32 (emptyCrossDefsField.drop 7) = 0 := by
  have H := C4_crossroad_nil_vs_empty dataD [rtAA] blockD crD4 rfl rfl
  exact ⟨H.1, H.2.1 replsRoadD 0 0 0 dataD 0 (by rfl) (by rfl),
    H.2.2.1 replsD4 0 (-25) 0 (by rfl),
    H.2.2.2.1 replsAllD 0 (-25) 0 (by rfl), H.2.2.2.2⟩

end Tv4p
